/-
Verification of the plan-compilation and resource-resolution layer of the
flink-agents Python repository, shallowly embedded in Lean 4.

The embedding mirrors, statement by statement:
  * `flink_agents/plan/agent_plan.py` (`AgentPlan.from_agent`,
    `AgentPlan.get_actions`, `AgentPlan.get_resource`, the resource-provider
    field serializer and the custom deserializer),
  * `flink_agents/api/chat_models/chat_model.py` (`ChatModelSettings.chat`),
  * `flink_agents/api/agent.py` / `flink_agents/api/decorators.py`
    (the declared-agent data that `from_agent` consumes).

Python dictionaries are embedded as insertion-ordered association lists with
the exact CPython semantics of `d[k]`, `d[k] = v` (in-place overwrite for an
existing key, append for a fresh key) and `k in d`.  Python exceptions are
embedded as an error sum: a failed dictionary index is `keyError`, a failed
`assert` is `assertionError`, exceeding the interpreter recursion limit on an
unboundedly recursive call chain is `recursionError`, and a pydantic
validation failure is `validationError`.  Object identity (`is`) is embedded
by tagging every instantiated resource with the allocation counter of an
explicit heap (`World.next_id`).
-/
import Mathlib

/-- Embedding of a Python `dict` read `d[k]` / `d.get(k)`: the value stored at
the first (hence only) occurrence of the key in the association list. -/
def dictGet {κ α : Type} [DecidableEq κ] : List (κ × α) → κ → Option α
  | [], _ => none
  | (k, v) :: rest, key => if k = key then some v else dictGet rest key

/-- Embedding of a Python `dict` write `d[k] = v`: overwrite in place if the
key is present (preserving insertion order), else append at the end. -/
def dictSet {κ α : Type} [DecidableEq κ] : List (κ × α) → κ → α → List (κ × α)
  | [], key, val => [(key, val)]
  | (k, v) :: rest, key, val =>
    if k = key then (key, val) :: rest else (k, v) :: dictSet rest key val

theorem dictGet_dictSet {κ α : Type} [DecidableEq κ] (d : List (κ × α)) (k k' : κ) (v : α) :
    dictGet (dictSet d k v) k' = if k = k' then some v else dictGet d k' := by
  induction d with
  | nil => by_cases h : k = k' <;> simp [dictSet, dictGet, h]
  | cons hd tl ih =>
    obtain ⟨k₀, v₀⟩ := hd
    by_cases h₀ : k₀ = k
    · subst h₀
      by_cases h : k₀ = k' <;> simp [dictSet, dictGet, h]
    · by_cases h : k₀ = k'
      · subst h
        have hne : ¬k = k₀ := fun hc => h₀ hc.symm
        simp [dictSet, dictGet, h₀, hne]
      · simp [dictSet, dictGet, h₀, h, ih]

theorem dictGet_dictSet_self {κ α : Type} [DecidableEq κ] (d : List (κ × α)) (k : κ) (v : α) :
    dictGet (dictSet d k v) k = some v := by
  simp [dictGet_dictSet]

theorem dictGet_dictSet_ne {κ α : Type} [DecidableEq κ] (d : List (κ × α)) {k k' : κ} (v : α)
    (h : k ≠ k') : dictGet (dictSet d k v) k' = dictGet d k' := by
  simp [dictGet_dictSet, h]

theorem dictGet_mem {κ α : Type} [DecidableEq κ] {d : List (κ × α)} {k : κ} {v : α}
    (h : dictGet d k = some v) : (k, v) ∈ d := by
  induction d with
  | nil => simp [dictGet] at h
  | cons hd tl ih =>
    obtain ⟨k₀, v₀⟩ := hd
    by_cases h₀ : k₀ = k
    · subst h₀
      simp [dictGet] at h
      subst h
      exact List.mem_cons_self _ _
    · simp [dictGet, h₀] at h
      exact List.mem_cons_of_mem _ (ih h)

/-- The `ResourceType` enum from `flink_agents/api/resource.py` (the four
uncommented members). -/
inductive ResourceType : Type
  | chat_model
  | chat_model_connection
  | tool
  | prompt
deriving DecidableEq, Repr

/-- The `Action` class consumed by `agent_plan.py` (`flink_agents/plan/actions/
action.py` is not under `src/`; its shape is fixed by every construction site
`Action(name=..., exec=..., listen_event_types=...)` in `agent_plan.py` and by
the spec's data model: name, opaque executable reference, and the listened
event types as module-qualified strings).  The Lean name `Action` is taken by
Mathlib, so the embedding calls it `PlanAction`. -/
structure PlanAction : Type where
  name : String
  exec : String
  listen_event_types : List String
deriving DecidableEq, Repr

/-- The four resource-provider classes of `flink_agents/plan/resource_provider.py`.
Modelled from the spec: that file is not under `src/`; the spec (§3) fixes a
closed variant of native (type identifier + plain-data constructor kwargs),
foreign-runtime, and prebuilt-serializable providers, and `agent_plan.py`
constructs `PythonResourceProvider(name, type, module, clazz, kwargs)` and
`PythonSerializableResourceProvider.from_resource(name, resource)` and reads
`provider.name` / `provider.type`.  Constructor kwargs are plain data
(scalars), embedded as string key/value pairs. -/
inductive ResourceProvider : Type
  | python (name : String) (rtype : ResourceType) (module clazz : String)
      (kwargs : List (String × String))
  | pythonSerializable (name : String) (rtype : ResourceType) (serialized : String)
  | java (name : String) (rtype : ResourceType) (descriptor : String)
  | javaSerializable (name : String) (rtype : ResourceType) (serialized : String)
deriving DecidableEq, Repr

/-- Accessor `provider.name`. -/
def ResourceProvider.name : ResourceProvider → String
  | .python n _ _ _ _ => n
  | .pythonSerializable n _ _ => n
  | .java n _ _ => n
  | .javaSerializable n _ _ => n

/-- Accessor `provider.type`. -/
def ResourceProvider.rtype : ResourceProvider → ResourceType
  | .python _ t _ _ _ => t
  | .pythonSerializable _ t _ => t
  | .java _ t _ => t
  | .javaSerializable _ t _ => t

/-- An instantiated resource object (`Resource` from `flink_agents/api/resource.py`,
as produced by `provider.provide`).  `obj_id` is the allocation identity of the
Python object: two resources are the identical object (`is`) exactly when
their `obj_id`s coincide. -/
structure Resource : Type where
  rtype : ResourceType
  name : String
  obj_id : Nat
deriving DecidableEq, Repr

/-- The `AgentPlan` pydantic model of `flink_agents/plan/agent_plan.py`:
`actions`, `actions_by_event`, `resource_providers` are declared fields;
`__resources` is the pydantic private attribute holding the runtime resource
cache (pydantic deep-copies the `{}` default per instance, so the cache is
per-plan-instance state).  Two-level dicts are embedded as nested association
lists. -/
structure AgentPlan : Type where
  actions : List (String × PlanAction)
  actions_by_event : List (String × List String)
  resource_providers : List (ResourceType × List (String × ResourceProvider))
  __resources : List (ResourceType × List (String × Resource))
deriving DecidableEq, Repr

/-- Read of a two-level dict `d[t][n]`, `none` when either level misses. -/
def lookup2 {α : Type} (d : List (ResourceType × List (String × α)))
    (t : ResourceType) (n : String) : Option α :=
  match dictGet d t with
  | none => none
  | some bucket => dictGet bucket n

/-- Write `d[t][n] = v` into a two-level dict (outer bucket created if absent,
exactly what `agent_plan.py` does by first ensuring `d[t] = {}`). -/
def set2 {α : Type} (d : List (ResourceType × List (String × α)))
    (t : ResourceType) (n : String) (v : α) : List (ResourceType × List (String × α)) :=
  dictSet d t (dictSet ((dictGet d t).getD []) n v)

theorem lookup2_set2 {α : Type} (d : List (ResourceType × List (String × α)))
    (t t' : ResourceType) (n n' : String) (v : α) :
    lookup2 (set2 d t n v) t' n' =
      if t = t' ∧ n = n' then some v else lookup2 d t' n' := by
  by_cases ht : t = t'
  · subst ht
    by_cases hn : n = n'
    · subst hn
      simp [lookup2, set2, dictGet_dictSet_self, dictGet_dictSet]
    · simp only [lookup2, set2, dictGet_dictSet_self, hn, and_false, if_false]
      rw [dictGet_dictSet_ne _ _ hn]
      cases h : dictGet d t with
      | none => simp [h, dictGet]
      | some bucket => simp [h]
  · simp only [lookup2, set2, ht, false_and, if_false]
    rw [dictGet_dictSet_ne _ _ ht]

/-- The statement `if type not in d: d[type] = {}` from `get_resource`. -/
def ensure_bucket {α : Type} (d : List (ResourceType × List (String × α)))
    (t : ResourceType) : List (ResourceType × List (String × α)) :=
  match dictGet d t with
  | some _ => d
  | none => dictSet d t []

theorem lookup2_ensure_bucket {α : Type} (d : List (ResourceType × List (String × α)))
    (t t' : ResourceType) (n' : String) :
    lookup2 (ensure_bucket d t) t' n' = lookup2 d t' n' := by
  unfold ensure_bucket
  cases h : dictGet d t with
  | some bucket => rfl
  | none =>
    by_cases ht : t = t'
    · subst ht
      simp [lookup2, dictGet_dictSet_self, h, dictGet]
    · simp [lookup2, dictGet_dictSet_ne _ _ ht]

/-- Python exceptions observed by this layer.  The spec's conceptual error
names map onto them as follows: `DuplicateNameError` is the `AssertionError`
of the `assert` statements in `from_agent`; `ResourceNotFoundError` is the
`KeyError` of the failed registry index `self.resource_providers[type][name]`;
a pydantic `ValidationError` surfaces an undecodable provider document. -/
inductive PyErr : Type
  | keyError
  | assertionError
  | recursionError
  | validationError
  | attributeError
deriving DecidableEq, Repr

/-- Reference to a Python class plus constructor kwargs, as stored in
`agent._chat_models` / `agent._chat_model_connections`
(`flink_agents/api/agent.py`): the class contributes `__module__`,
`__name__` and `resource_type()`. -/
structure PyClass : Type where
  module : String
  clazz : String
  rtype : ResourceType
  kwargs : List (String × String)
deriving DecidableEq, Repr

/-- A declared agent, as consumed by `_get_actions` and
`_get_resource_providers` in `agent_plan.py`.  The two reflection passes over
`agent.__class__.__dict__` are embedded as the member-order lists
`decorated_actions` / `decorated_providers` (decorator dispatch already
performed, event types already module-qualified, exactly the tuples the scan
produces); the explicit-registration dicts `_actions`, `_prompts`, `_tools`,
`_chat_models`, `_chat_model_connections` of `flink_agents/api/agent.py` are
the remaining insertion-order lists. -/
structure AgentDecl : Type where
  decorated_actions : List PlanAction
  registered_actions : List PlanAction
  decorated_providers : List ResourceProvider
  prompts : List (String × String)
  tools : List (String × String)
  chat_models : List (String × PyClass)
  chat_model_connections : List (String × PyClass)
deriving DecidableEq, Repr

/-- Modelled from the spec: the built-in model-invocation action
(`CHAT_MODEL_ACTION` from `flink_agents/plan/actions/chat_model_action.py`,
not under `src/`).  Per spec §4.1 it is a fixed well-known action consuming
the chat-request event emitted by user actions. -/
def CHAT_MODEL_ACTION : PlanAction :=
  { name := "chat_model_action"
    exec := "flink_agents.plan.actions.chat_model_action"
    listen_event_types := ["flink_agents.api.events.chat_event.ChatRequestEvent"] }

/-- Modelled from the spec: the built-in tool-invocation action
(`TOOL_CALL_ACTION` from `flink_agents/plan/actions/tool_call_action.py`,
not under `src/`). -/
def TOOL_CALL_ACTION : PlanAction :=
  { name := "tool_call_action"
    exec := "flink_agents.plan.actions.tool_call_action"
    listen_event_types := ["flink_agents.api.events.tool_event.ToolRequestEvent"] }

/-- The list `BUILT_IN_ACTIONS = [CHAT_MODEL_ACTION, TOOL_CALL_ACTION]` from
`agent_plan.py`. -/
def BUILT_IN_ACTIONS : List PlanAction := [CHAT_MODEL_ACTION, TOOL_CALL_ACTION]

/-- Embedding of `_get_actions(agent)` from `agent_plan.py`: the class-member scan in member
order, then the explicitly registered `agent._actions` in insertion order. -/
def _get_actions (agent : AgentDecl) : List PlanAction :=
  agent.decorated_actions ++ agent.registered_actions

/-- A `PythonResourceProvider` built from a registered class + kwargs, as in
the `_chat_models` / `_chat_model_connections` loops of
`_get_resource_providers`. -/
def providerOfClass (name : String) (c : PyClass) : ResourceProvider :=
  .python name c.rtype c.module c.clazz c.kwargs

/-- Embedding of `_get_resource_providers(agent)` from `agent_plan.py`: the class-member
scan (chat models and connections become `PythonResourceProvider`s, tools and
prompts become `PythonSerializableResourceProvider`s, in member order), then
`agent._prompts`, `agent._tools`, `agent._chat_models`,
`agent._chat_model_connections`, each in insertion order. -/
def _get_resource_providers (agent : AgentDecl) : List ResourceProvider :=
  agent.decorated_providers
    ++ agent.prompts.map (fun p => .pythonSerializable p.1 .prompt p.2)
    ++ agent.tools.map (fun p => .pythonSerializable p.1 .tool p.2)
    ++ agent.chat_models.map (fun p => providerOfClass p.1 p.2)
    ++ agent.chat_model_connections.map (fun p => providerOfClass p.1 p.2)

/-- The inner loop of `from_agent` over `action.listen_event_types`:
`if event_type not in actions_by_event: actions_by_event[event_type] = []`
then `actions_by_event[event_type].append(action.name)`. -/
def register_events (name : String) :
    List String → List (String × List String) → List (String × List String)
  | [], abe => abe
  | et :: rest, abe =>
    register_events name rest (dictSet abe et ((dictGet abe et).getD [] ++ [name]))

/-- The action loop of `from_agent`: `assert action.name not in actions` (an
`AssertionError` is the spec's `DuplicateNameError`), `actions[action.name] =
action`, then the event loop. -/
def register_actions :
    List PlanAction → List (String × PlanAction) → List (String × List String) →
      Except PyErr (List (String × PlanAction) × List (String × List String))
  | [], acts, abe => .ok (acts, abe)
  | a :: rest, acts, abe =>
    if (dictGet acts a.name).isSome then .error .assertionError
    else
      register_actions rest (dictSet acts a.name a)
        (register_events a.name a.listen_event_types abe)

/-- The provider loop of `from_agent`: ensure the kind's bucket, `assert name
not in resource_providers[type]`, then store the provider. -/
def register_providers :
    List ResourceProvider → List (ResourceType × List (String × ResourceProvider)) →
      Except PyErr (List (ResourceType × List (String × ResourceProvider)))
  | [], reg => .ok reg
  | p :: rest, reg =>
    let bucket := (dictGet reg p.rtype).getD []
    if (dictGet bucket p.name).isSome then .error .assertionError
    else register_providers rest (dictSet reg p.rtype (dictSet bucket p.name p))

/-- Embedding of `AgentPlan.from_agent` from `agent_plan.py`: gather actions (user actions
then `BUILT_IN_ACTIONS`), build `actions` and `actions_by_event`, gather
resource providers, build the two-level registry, and return the plan (the
private cache starts from its empty default). -/
def from_agent (agent : AgentDecl) : Except PyErr AgentPlan :=
  match register_actions (_get_actions agent ++ BUILT_IN_ACTIONS) [] [] with
  | .error e => .error e
  | .ok (acts, abe) =>
    match register_providers (_get_resource_providers agent) [] with
    | .error e => .error e
    | .ok reg =>
      .ok { actions := acts, actions_by_event := abe, resource_providers := reg,
            __resources := [] }

/-- The list comprehension `[self.actions[name] for name in ...]`: each dict
index may raise `KeyError`. -/
def lookup_action_names (acts : List (String × PlanAction)) :
    List String → Except PyErr (List PlanAction)
  | [] => .ok []
  | n :: rest => do
    match dictGet acts n with
    | none => .error .keyError
    | some a => do
      let tl ← lookup_action_names acts rest
      .ok (a :: tl)

/-- Embedding of `AgentPlan.get_actions` from `agent_plan.py`:
`return [self.actions[name] for name in self.actions_by_event[event_type]]` —
the outer index `self.actions_by_event[event_type]` raises `KeyError` when the
event type has no entry. -/
def get_actions (p : AgentPlan) (event_type : String) : Except PyErr (List PlanAction) :=
  match dictGet p.actions_by_event event_type with
  | none => .error .keyError
  | some names => lookup_action_names p.actions names

/-- The result of `provider.model_dump()`: the plain-data field record of one provider
instance, before the discriminant tag is attached.  One constructor per
provider class, mirroring that the four classes have distinct field records
that pydantic dumps and re-validates. -/
inductive ProviderDump : Type
  | python (name : String) (rtype : ResourceType) (module clazz : String)
      (kwargs : List (String × String))
  | pythonSerializable (name : String) (rtype : ResourceType) (serialized : String)
  | java (name : String) (rtype : ResourceType) (descriptor : String)
  | javaSerializable (name : String) (rtype : ResourceType) (serialized : String)
deriving DecidableEq, Repr

/-- One encoded provider entry: `provider.model_dump()` plus the
`"__resource_provider_type__"` discriminant added by
`AgentPlan.__serialize_resource_providers`. -/
structure ProviderDoc : Type where
  resource_provider_type : String
  dump : ProviderDump
deriving DecidableEq, Repr

/-- Embedding of `provider.model_dump()` for each of the four classes. -/
def ResourceProvider.model_dump : ResourceProvider → ProviderDump
  | .python n t m c kw => .python n t m c kw
  | .pythonSerializable n t s => .pythonSerializable n t s
  | .java n t d => .java n t d
  | .javaSerializable n t s => .javaSerializable n t s

/-- The discriminant written by `__serialize_resource_providers`: the
`isinstance` chain over `PythonResourceProvider`,
`PythonSerializableResourceProvider`, `JavaResourceProvider`,
`JavaSerializableResourceProvider`. -/
def provider_tag : ResourceProvider → String
  | .python _ _ _ _ _ => "PythonResourceProvider"
  | .pythonSerializable _ _ _ => "PythonSerializableResourceProvider"
  | .java _ _ _ => "JavaResourceProvider"
  | .javaSerializable _ _ _ => "JavaSerializableResourceProvider"

/-- One provider entry of `AgentPlan.__serialize_resource_providers`:
`data[type][name] = provider.model_dump()` plus
`data[type][name]["__resource_provider_type__"] = <class name>`. -/
def encode_provider (p : ResourceProvider) : ProviderDoc :=
  { resource_provider_type := provider_tag p, dump := p.model_dump }

/-- One provider entry of `AgentPlan.__custom_deserialize`: dispatch on
`provider["__resource_provider_type__"]` and `model_validate` the matching
class (a document whose fields do not fit the dispatched class, or whose tag
matches no branch, fails pydantic validation). -/
def decode_provider (d : ProviderDoc) : Except PyErr ResourceProvider :=
  if d.resource_provider_type = "PythonResourceProvider" then
    match d.dump with
    | .python n t m c kw => .ok (.python n t m c kw)
    | _ => .error .validationError
  else if d.resource_provider_type = "PythonSerializableResourceProvider" then
    match d.dump with
    | .pythonSerializable n t s => .ok (.pythonSerializable n t s)
    | _ => .error .validationError
  else if d.resource_provider_type = "JavaResourceProvider" then
    match d.dump with
    | .java n t dd => .ok (.java n t dd)
    | _ => .error .validationError
  else if d.resource_provider_type = "JavaSerializableResourceProvider" then
    match d.dump with
    | .javaSerializable n t s => .ok (.javaSerializable n t s)
    | _ => .error .validationError
  else .error .validationError

/-- The serialized `AgentPlan` document: the three declared fields; the
private cache `__resources` has no counterpart here (pydantic never dumps
private attributes). -/
structure PlanDoc : Type where
  actions : List (String × PlanAction)
  actions_by_event : List (String × List String)
  resource_providers : List (ResourceType × List (String × ProviderDoc))
deriving DecidableEq, Repr

/-- Embedding of `AgentPlan.__serialize_resource_providers`: tag-and-dump every provider of
every kind, preserving the two-level dict structure. -/
def serialize_resource_providers
    (reg : List (ResourceType × List (String × ResourceProvider))) :
    List (ResourceType × List (String × ProviderDoc)) :=
  reg.map (fun tb => (tb.1, tb.2.map (fun np => (np.1, encode_provider np.2))))

/-- Embedding of `AgentPlan.model_dump()`: the encoded document. -/
def AgentPlan.model_dump (p : AgentPlan) : PlanDoc :=
  { actions := p.actions
    actions_by_event := p.actions_by_event
    resource_providers := serialize_resource_providers p.resource_providers }

/-- The inner-name loop of `AgentPlan.__custom_deserialize` over one kind's
bucket. -/
def decode_bucket : List (String × ProviderDoc) →
    Except PyErr (List (String × ResourceProvider))
  | [] => .ok []
  | (n, d) :: rest => do
    let p ← decode_provider d
    let tl ← decode_bucket rest
    .ok ((n, p) :: tl)

/-- The outer-kind loop of `AgentPlan.__custom_deserialize`. -/
def decode_registry : List (ResourceType × List (String × ProviderDoc)) →
    Except PyErr (List (ResourceType × List (String × ResourceProvider)))
  | [] => .ok []
  | (t, b) :: rest => do
    let b' ← decode_bucket b
    let tl ← decode_registry rest
    .ok ((t, b') :: tl)

/-- Embedding of `AgentPlan.model_validate(document)` with the `__custom_deserialize`
before-validator: rebuild every provider from its tagged dump, keep actions
and dispatch table, and construct the instance — whose private `__resources`
cache starts from a fresh copy of its empty default. -/
def AgentPlan.model_validate (d : PlanDoc) : Except PyErr AgentPlan := do
  let reg ← decode_registry d.resource_providers
  .ok { actions := d.actions, actions_by_event := d.actions_by_event,
        resource_providers := reg, __resources := [] }

/-- The runtime world outside one plan instance: the Python heap's allocation
counter (source of object identities) and the log of provider-instantiation
calls (one entry per `provider.provide` invocation, used to count construction
side effects). -/
structure World : Type where
  next_id : Nat
  constructions : List (ResourceType × String)
deriving DecidableEq, Repr

/-- State threaded through `AgentPlan.get_resource`: the plan instance (whose
private `__resources` cache is the only mutable plan field) and the world. -/
structure RState : Type where
  plan : AgentPlan
  world : World
deriving DecidableEq, Repr

/-- Static dependency table of the provider graph.  Modelled from the spec:
`provider.provide(get_resource=...)` (in `flink_agents/plan/resource_provider.py`,
not under `src/`) instantiates the resource, and per spec §4.4 the
constructor may transitively resolve its own named dependencies through the
passed-in `get_resource` before the new object is returned.  `deps` lists, per
`(kind, name)`, the dependencies that provider resolves, in order. -/
def depsOf (deps : List ((ResourceType × String) × List (ResourceType × String)))
    (t : ResourceType) (n : String) : List (ResourceType × String) :=
  (dictGet deps (t, n)).getD []

/-- The dependency-resolution loop inside `provider.provide`: resolve each
named dependency in order through the supplied resolver `g`; a raised
exception propagates and aborts construction. -/
def resolve_list (g : String → ResourceType → RState → Except PyErr Resource × RState) :
    List (ResourceType × String) → RState → Except PyErr Unit × RState
  | [], s => (.ok (), s)
  | (t, n) :: rest, s =>
    match g n t s with
    | (.ok _, s') => resolve_list g rest s'
    | (.error e, s') => (.error e, s')

/-- Embedding of `AgentPlan.get_resource(name, type)` from `agent_plan.py`, statement by
statement:

  * `if type not in self.__resources: self.__resources[type] = {}`,
  * `if name not in self.__resources[type]:` — on a cache hit fall through to
    the final read,
  * `resource_provider = self.resource_providers[type][name]` — `KeyError`
    (the spec's `ResourceNotFoundError`) when absent,
  * `resource = resource_provider.provide(get_resource=self.get_resource)` —
    log the invocation, resolve the provider's declared dependencies through
    recursive `get_resource` calls, then allocate the new object,
  * `self.__resources[type][name] = resource`,
  * `return self.__resources[type][name]`.

The method has no cycle detection and no in-progress marker: recursive
resolution is bounded only by the Python interpreter's recursion limit,
embedded as the `fuel` argument — exhausting it is the interpreter's
`RecursionError`. -/
def get_resource (deps : List ((ResourceType × String) × List (ResourceType × String))) :
    Nat → String → ResourceType → RState → Except PyErr Resource × RState
  | 0, _, _, s => (.error .recursionError, s)
  | fuel + 1, name, type, s =>
    let c := ensure_bucket s.plan.__resources type
    let s := { s with plan := { s.plan with __resources := c } }
    match lookup2 c type name with
    | some r => (.ok r, s)
    | none =>
      match lookup2 s.plan.resource_providers type name with
      | none => (.error .keyError, s)
      | some _ =>
        let s := { s with world :=
          { s.world with constructions := s.world.constructions ++ [(type, name)] } }
        match resolve_list (get_resource deps fuel) (depsOf deps type name) s with
        | (.error e, s') => (.error e, s')
        | (.ok _, s') =>
          let r : Resource := ⟨type, name, s'.world.next_id⟩
          let s' := { s' with
            world := { s'.world with next_id := s'.world.next_id + 1 },
            plan := { s'.plan with
              __resources := set2 s'.plan.__resources type name r } }
          match lookup2 s'.plan.__resources type name with
          | some r' => (.ok r', s')
          | none => (.error .keyError, s')

/-- A chat message (`flink_agents/api/chat_message.py`, not under `src/`; the
fields used by `ChatModelSettings.chat` are `content` and `extra_args`, plus
the role).  `extra_args` is the message's extra keyword context, a plain
dict. -/
structure ChatMessage : Type where
  role : String
  content : String
  extra_args : List (String × String)
deriving DecidableEq, Repr

/-- Modelled from the spec: a prompt-template resource
(`flink_agents/api/prompts/prompt.py` is not under `src/`); its template
semantics are opaque to this layer — `format_messages` is passed in as an
abstract formatting capability. -/
structure Prompt : Type where
  name : String
  text : String
deriving DecidableEq, Repr

/-- The `Optional[Union[Prompt, str]]` field `ChatModelSettings.prompt`: an
inline prompt object, or the name of a prompt resource. -/
inductive PromptOrStr : Type
  | obj (p : Prompt)
  | byName (s : String)
deriving DecidableEq, Repr

/-- Values returned by the resolver to `ChatModelSettings.chat`: a connection
object, a prompt object, or a tool object (connections and tools are opaque
here and carry only their identity). -/
inductive RVal : Type
  | conn (id : Nat)
  | promptVal (p : Prompt)
  | toolVal (id : Nat)
deriving DecidableEq, Repr

/-- The declared fields of `ChatModelSettings`
(`flink_agents/api/chat_models/chat_model.py`): the referenced connection
name, the optional prompt (inline or by name), the optional tool names. -/
structure ChatModelSettings : Type where
  name : String
  connection : String
  prompt : Option PromptOrStr
  tools : Option (List String)
deriving DecidableEq, Repr

/-- Embedding of `input_variable.update(msg.extra_args)`: Python `dict.update`, a
sequential key-by-key overwrite in the iteration order of the argument. -/
def dict_update (d : List (String × String)) (args : List (String × String)) :
    List (String × String) :=
  args.foldl (fun acc kv => dictSet acc kv.1 kv.2) d

/-- The merged extra keyword context of `ChatModelSettings.chat`:
`input_variable = {}` then `for msg in messages: input_variable.update(msg.extra_args)`. -/
def merged_extra_args (messages : List ChatMessage) : List (String × String) :=
  messages.foldl (fun d m => dict_update d m.extra_args) []

/-- The list comprehension resolving `self.tools` by name:
`[self.get_resource(tool_name, ResourceType.TOOL) for tool_name in self.tools]`. -/
def resolve_tools (res : String → ResourceType → Except PyErr RVal) :
    List String → Except PyErr (List RVal)
  | [] => .ok []
  | nm :: rest => do
    let v ← res nm .tool
    let tl ← resolve_tools res rest
    .ok (v :: tl)

/-- The `Apply prompt template` block of `ChatModelSettings.chat`: when a
prompt is declared, resolve it by name when it is a string (else use the
inline prompt object), merge every input message's `extra_args` into
`input_variable` by sequential `dict.update`, and replace the messages with
`prompt.format_messages(**input_variable)`; with no declared prompt the
messages pass through unchanged. -/
def apply_prompt (res : String → ResourceType → Except PyErr RVal)
    (fm : Prompt → List (String × String) → List ChatMessage)
    (prompt : Option PromptOrStr) (messages : List ChatMessage) :
    Except PyErr (List ChatMessage) :=
  match prompt with
  | none => .ok messages
  | some pr =>
    match (match pr with
           | .byName nm => res nm .prompt
           | .obj p => .ok (RVal.promptVal p)) with
    | .error e => .error e
    | .ok (RVal.promptVal p) => .ok (fm p (merged_extra_args messages))
    | .ok _ => .error .attributeError

/-- The `Bind tools` block of `ChatModelSettings.chat`: `tools = None` when
`self.tools` is undeclared, else the list comprehension resolving each tool
name; a raised exception propagates. -/
def bind_tools (res : String → ResourceType → Except PyErr RVal)
    (tools : Option (List String)) : Except PyErr (Option (List RVal)) :=
  match tools with
  | none => .ok none
  | some names =>
    match resolve_tools res names with
    | .error e => .error e
    | .ok ts => .ok (some ts)

/-- Embedding of `ChatModelSettings.chat(messages)` from
`flink_agents/api/chat_models/chat_model.py`, statement by statement:

  * `connection = self.get_resource(self.connection, CHAT_MODEL_CONNECTION)`,
  * the `Apply prompt template` block (`apply_prompt`),
  * the `Bind tools` block (`bind_tools`),
  * `return connection.chat(messages, tools=tools, **kwargs)`.

`res` is the plan's resolver (`self.get_resource`), `fm` the opaque
`Prompt.format_messages`, `conn_chat` the opaque `ChatModelConnection.chat`
of the resolved connection; a resolved object of the wrong shape fails with
the `AttributeError` Python would raise when its methods are accessed. -/
def ChatModelSettings.chat (res : String → ResourceType → Except PyErr RVal)
    (fm : Prompt → List (String × String) → List ChatMessage)
    (conn_chat : Nat → List ChatMessage → Option (List RVal) → ChatMessage)
    (s : ChatModelSettings) (messages : List ChatMessage) :
    Except PyErr ChatMessage :=
  match res s.connection .chat_model_connection with
  | .error e => .error e
  | .ok connv =>
    match apply_prompt res fm s.prompt messages with
    | .error e => .error e
    | .ok templated =>
      match bind_tools res s.tools with
      | .error e => .error e
      | .ok tools =>
        match connv with
        | .conn cid => .ok (conn_chat cid templated tools)
        | _ => .error .attributeError

/-- One thread executing `AgentPlan.get_resource(name, type)` concurrently
with another, on a provider without dependencies.  The program counter
enumerates the method's statement boundaries, at which the interpreter may
switch threads: `0` — about to run the cache-membership test; `1` — missed,
about to run `resource_provider.provide(...)`; `2` — about to run
`self.__resources[type][name] = resource` with the freshly constructed object
in the local `resource`; `3` — about to run
`return self.__resources[type][name]`; `4` — returned. -/
structure ThreadSt : Type where
  pc : Nat
  constructed : Option Resource
  ret : Option Resource
deriving DecidableEq, Repr

/-- Shared state of two concurrent `get_resource` calls on one plan instance:
the plan's `__resources` cache, the heap/construction log, and both threads. -/
structure RaceSt : Type where
  cache : List (ResourceType × List (String × Resource))
  world : World
  t1 : ThreadSt
  t2 : ThreadSt
deriving DecidableEq, Repr

/-- Advance one thread of the race by one atomic statement of `get_resource`
(the method body contains no lock, so any interleaving of these statements is
a possible execution). -/
def thread_step (t : ResourceType) (n : String)
    (ts : ThreadSt) (cache : List (ResourceType × List (String × Resource)))
    (w : World) :
    ThreadSt × List (ResourceType × List (String × Resource)) × World :=
  match ts.pc with
  | 0 =>
    let cache := ensure_bucket cache t
    match lookup2 cache t n with
    | some _ => ({ ts with pc := 3 }, cache, w)
    | none => ({ ts with pc := 1 }, cache, w)
  | 1 =>
    let r : Resource := ⟨t, n, w.next_id⟩
    ({ ts with pc := 2, constructed := some r }, cache,
     { next_id := w.next_id + 1, constructions := w.constructions ++ [(t, n)] })
  | 2 =>
    match ts.constructed with
    | some r => ({ ts with pc := 3 }, set2 cache t n r, w)
    | none => (ts, cache, w)
  | 3 => ({ ts with pc := 4, ret := lookup2 cache t n }, cache, w)
  | _ => (ts, cache, w)

/-- Run one scheduler choice: `true` steps thread 1, `false` steps thread 2. -/
def race_step (t : ResourceType) (n : String) (s : RaceSt) (choice : Bool) : RaceSt :=
  if choice then
    let (ts, cache, w) := thread_step t n s.t1 s.cache s.world
    { s with t1 := ts, cache := cache, world := w }
  else
    let (ts, cache, w) := thread_step t n s.t2 s.cache s.world
    { s with t2 := ts, cache := cache, world := w }

/-- Run an interleaving schedule of the two concurrent calls. -/
def race_run (t : ResourceType) (n : String) (sched : List Bool) (s : RaceSt) : RaceSt :=
  sched.foldl (race_step t n) s

/-- Both threads at the start of `get_resource`, empty cache, fresh heap. -/
def race_init : RaceSt :=
  { cache := [], world := { next_id := 0, constructions := [] },
    t1 := { pc := 0, constructed := none, ret := none },
    t2 := { pc := 0, constructed := none, ret := none } }

theorem decode_provider_encode_provider (p : ResourceProvider) :
    decode_provider (encode_provider p) = .ok p := by
  cases p <;> rfl

theorem decode_bucket_encode (b : List (String × ResourceProvider)) :
    decode_bucket (b.map (fun np => (np.1, encode_provider np.2))) = .ok b := by
  induction b with
  | nil => rfl
  | cons hd tl ih =>
    obtain ⟨n, p⟩ := hd
    simp only [List.map_cons, decode_bucket, decode_provider_encode_provider, ih]
    rfl

theorem decode_registry_serialize
    (reg : List (ResourceType × List (String × ResourceProvider))) :
    decode_registry (serialize_resource_providers reg) = .ok reg := by
  induction reg with
  | nil => rfl
  | cons hd tl ih =>
    obtain ⟨t, b⟩ := hd
    simp only [serialize_resource_providers, List.map_cons] at ih ⊢
    simp only [decode_registry, decode_bucket_encode, ih]
    rfl

/-- Claim C3: decoding the encoding of any compiled `AgentPlan` yields a plan
whose `actions`, `actions_by_event` dispatch table and `resource_providers`
registry are structurally equal to the original's, and whose runtime resource
cache `__resources` is empty — the cache is never part of the encoded
document (`PlanDoc` has no cache field) and a freshly validated instance
starts from the empty private-attribute default. -/
theorem agent_plan_roundtrip (p : AgentPlan) :
    AgentPlan.model_validate (AgentPlan.model_dump p) =
      .ok { actions := p.actions, actions_by_event := p.actions_by_event,
            resource_providers := p.resource_providers, __resources := [] } := by
  simp only [AgentPlan.model_validate, AgentPlan.model_dump, decode_registry_serialize]
  rfl

/-- A declared agent with no members at all. -/
def empty_agent : AgentDecl :=
  { decorated_actions := [], registered_actions := [], decorated_providers := [],
    prompts := [], tools := [], chat_models := [], chat_model_connections := [] }

/-- The plan compiled from `empty_agent` (compilation succeeds: only the two
built-in actions are registered). -/
def empty_plan : AgentPlan :=
  match from_agent empty_agent with
  | .ok p => p
  | .error _ => { actions := [], actions_by_event := [], resource_providers := [],
                  __resources := [] }

/-- Claim C4, counterexample: on the plan compiled from the empty agent,
routing an event type with no registered listening action does not return an
empty list — the dict index `self.actions_by_event[event_type]` raises
`KeyError`. -/
theorem get_actions_unrouted_counterexample :
    from_agent empty_agent = .ok empty_plan ∧
      get_actions empty_plan "myapp.events.UnroutedEvent" = .error .keyError := by
  constructor
  · rfl
  · rfl

/-- Claim C4, amended: for every plan and every event type identifier with no
entry in `actions_by_event`, `get_actions` raises `KeyError` (the failed dict
index) instead of returning an empty list. -/
theorem get_actions_unrouted (p : AgentPlan) (event_type : String)
    (h : dictGet p.actions_by_event event_type = none) :
    get_actions p event_type = .error .keyError := by
  simp [get_actions, h]

/-- Witness for `get_actions_unrouted` at the compiled empty plan and a
concrete unrouted event type. -/
theorem get_actions_unrouted_witness :
    dictGet empty_plan.actions_by_event "myapp.events.UnroutedEvent" = none ∧
      get_actions empty_plan "myapp.events.UnroutedEvent" = .error .keyError :=
  ⟨by rfl, get_actions_unrouted empty_plan "myapp.events.UnroutedEvent" (by rfl)⟩

/-- Number of occurrences of one event type in an action's
`listen_event_types` list. -/
def countOcc (et : String) : List String → Nat
  | [] => 0
  | e :: rest => (if e = et then 1 else 0) + countOcc et rest

/-- The action names appended for one event type by the `from_agent` loop,
in iteration order: for each action in order, one copy of its name per
occurrence of the event type in its `listen_event_types`. -/
def listeners : List PlanAction → String → List String
  | [], _ => []
  | a :: rest, et =>
    List.replicate (countOcc et a.listen_event_types) a.name ++ listeners rest et

theorem listeners_append (l₁ l₂ : List PlanAction) (et : String) :
    listeners (l₁ ++ l₂) et = listeners l₁ et ++ listeners l₂ et := by
  induction l₁ with
  | nil => simp [listeners]
  | cons a rest ih => simp [listeners, ih]

theorem register_events_get (nm : String) (lets : List String)
    (abe : List (String × List String)) (et : String) :
    (dictGet (register_events nm lets abe) et).getD [] =
      (dictGet abe et).getD [] ++ List.replicate (countOcc et lets) nm := by
  induction lets generalizing abe with
  | nil => simp [register_events, countOcc]
  | cons e rest ih =>
    by_cases he : e = et
    · subst he
      rw [show countOcc e (e :: rest) = 1 + countOcc e rest from by simp [countOcc]]
      simp only [register_events, ih, dictGet_dictSet_self, Option.getD_some,
        List.replicate_add]
      rw [List.append_assoc]
      rfl
    · simp only [register_events, ih, dictGet_dictSet_ne _ _ he, countOcc,
        if_neg he, Nat.zero_add]

theorem register_actions_get (l : List PlanAction) (acts : List (String × PlanAction))
    (abe : List (String × List String)) (acts' : List (String × PlanAction))
    (abe' : List (String × List String))
    (h : register_actions l acts abe = .ok (acts', abe')) (et : String) :
    (dictGet abe' et).getD [] = (dictGet abe et).getD [] ++ listeners l et := by
  induction l generalizing acts abe with
  | nil =>
    simp only [register_actions, Except.ok.injEq, Prod.mk.injEq] at h
    simp [h.2, listeners]
  | cons a rest ih =>
    simp only [register_actions] at h
    split at h
    · exact absurd h (by simp)
    · rw [ih _ _ h, register_events_get, List.append_assoc]
      rfl

theorem from_agent_ok_elim (agent : AgentDecl) (p : AgentPlan)
    (h : from_agent agent = .ok p) :
    ∃ acts abe reg,
      register_actions (_get_actions agent ++ BUILT_IN_ACTIONS) [] [] = .ok (acts, abe) ∧
      register_providers (_get_resource_providers agent) [] = .ok reg ∧
      p = { actions := acts, actions_by_event := abe, resource_providers := reg,
            __resources := [] } := by
  unfold from_agent at h
  cases h₁ : register_actions (_get_actions agent ++ BUILT_IN_ACTIONS) [] [] with
  | error e => rw [h₁] at h; exact absurd h (by simp)
  | ok x =>
    obtain ⟨acts, abe⟩ := x
    rw [h₁] at h
    cases h₂ : register_providers (_get_resource_providers agent) [] with
    | error e => rw [h₂] at h; exact absurd h (by simp)
    | ok reg =>
      rw [h₂] at h
      simp only [Except.ok.injEq] at h
      exact ⟨acts, abe, reg, rfl, rfl, h.symm⟩

/-- Claim C5: compilation builds the dispatch table by iterating the gathered
user actions in their fixed gathering order with the two built-in actions
appended last, appending each action's name to the list of every event type
it listens to.  Hence, for every successfully compiled plan, the
`actions_by_event` entry of any event type is exactly the user actions'
contributions in gathering order followed by the built-in actions'
contributions — two user actions listening to the same event type both appear,
in discovery order, and built-in names come after user names.  Compilation is
a pure function of the declaration, so the result is deterministic across
repeated compilations. -/
theorem from_agent_dispatch_table (agent : AgentDecl) (p : AgentPlan)
    (h : from_agent agent = .ok p) :
    (∀ et, (dictGet p.actions_by_event et).getD [] =
        listeners (_get_actions agent) et ++ listeners BUILT_IN_ACTIONS et) ∧
    ∀ q, from_agent agent = .ok q → q = p := by
  obtain ⟨acts, abe, reg, h₁, h₂, rfl⟩ := from_agent_ok_elim agent p h
  constructor
  · intro et
    have := register_actions_get _ _ _ _ _ h₁ et
    simpa [listeners_append, dictGet] using this
  · intro q hq
    rw [hq] at h
    exact (Except.ok.injEq _ _).mp h.symm |>.symm

/-- A declared agent with two actions listening to the same event type. -/
def sample_agent : AgentDecl :=
  { decorated_actions :=
      [ { name := "first_action", exec := "m.first_action",
          listen_event_types := ["flink_agents.api.events.event.InputEvent"] },
        { name := "second_action", exec := "m.second_action",
          listen_event_types := ["flink_agents.api.events.event.InputEvent"] } ]
    registered_actions := [], decorated_providers := [], prompts := [],
    tools := [], chat_models := [], chat_model_connections := [] }

/-- The plan compiled from `sample_agent`. -/
def sample_plan : AgentPlan :=
  match from_agent sample_agent with
  | .ok p => p
  | .error _ => { actions := [], actions_by_event := [], resource_providers := [],
                  __resources := [] }

/-- Witness for `from_agent_dispatch_table` at `sample_agent`. -/
theorem from_agent_dispatch_table_witness :
    from_agent sample_agent = .ok sample_plan ∧
      ((∀ et, (dictGet sample_plan.actions_by_event et).getD [] =
          listeners (_get_actions sample_agent) et ++ listeners BUILT_IN_ACTIONS et) ∧
        ∀ q, from_agent sample_agent = .ok q → q = sample_plan) :=
  ⟨by rfl, from_agent_dispatch_table sample_agent sample_plan (by rfl)⟩

theorem register_actions_error (l : List PlanAction) (acts : List (String × PlanAction))
    (abe : List (String × List String)) (e : PyErr)
    (h : register_actions l acts abe = .error e) : e = .assertionError := by
  induction l generalizing acts abe with
  | nil => exact absurd h (by simp [register_actions])
  | cons a rest ih =>
    simp only [register_actions] at h
    split at h
    · exact (Except.error.injEq _ _).mp h |>.symm
    · exact ih _ _ h

theorem register_actions_preserve (l : List PlanAction)
    (acts : List (String × PlanAction)) (abe : List (String × List String))
    (acts' : List (String × PlanAction)) (abe' : List (String × List String))
    (h : register_actions l acts abe = .ok (acts', abe')) :
    ∀ k v, dictGet acts k = some v → dictGet acts' k = some v := by
  induction l generalizing acts abe with
  | nil =>
    simp only [register_actions, Except.ok.injEq, Prod.mk.injEq] at h
    rw [← h.1]
    exact fun _ _ hk => hk
  | cons a rest ih =>
    simp only [register_actions] at h
    split at h
    · exact absurd h (by simp)
    · rename_i hs
      intro k v hk
      have hne : a.name ≠ k := by
        intro hEq
        rw [hEq, hk] at hs
        exact hs rfl
      exact ih _ _ h k v (by rw [dictGet_dictSet_ne _ _ hne]; exact hk)

theorem register_actions_mem (l : List PlanAction)
    (acts : List (String × PlanAction)) (abe : List (String × List String))
    (acts' : List (String × PlanAction)) (abe' : List (String × List String))
    (h : register_actions l acts abe = .ok (acts', abe')) :
    ∀ a ∈ l, dictGet acts' a.name = some a := by
  induction l generalizing acts abe with
  | nil => simp
  | cons a rest ih =>
    simp only [register_actions] at h
    split at h
    · exact absurd h (by simp)
    · intro b hb
      rcases List.mem_cons.mp hb with hb | hb
      · subst hb
        exact register_actions_preserve _ _ _ _ _ h b.name b
          (dictGet_dictSet_self _ _ _)
      · exact ih _ _ h b hb

theorem register_actions_nodup (l : List PlanAction)
    (acts : List (String × PlanAction)) (abe : List (String × List String))
    (x : List (String × PlanAction) × List (String × List String))
    (h : register_actions l acts abe = .ok x) :
    (l.map PlanAction.name).Nodup ∧ ∀ a ∈ l, dictGet acts a.name = none := by
  induction l generalizing acts abe with
  | nil => simp
  | cons a rest ih =>
    simp only [register_actions] at h
    split at h
    · exact absurd h (by simp)
    · rename_i hs
      have hnone : dictGet acts a.name = none :=
        Option.not_isSome_iff_eq_none.mp (by simpa using hs)
      obtain ⟨hnd, hfresh⟩ := ih _ _ h
      have hne : ∀ b ∈ rest, b.name ≠ a.name := by
        intro b hb hEq
        have := hfresh b hb
        rw [hEq, dictGet_dictSet_self] at this
        exact absurd this (by simp)
      refine ⟨List.nodup_cons.mpr ⟨?_, hnd⟩, ?_⟩
      · intro hmem
        obtain ⟨b, hb, hEq⟩ := List.mem_map.mp hmem
        exact hne b hb hEq
      · intro b hb
        rcases List.mem_cons.mp hb with hb | hb
        · subst hb; exact hnone
        · have := hfresh b hb
          rwa [dictGet_dictSet_ne _ _ (fun hEq => hne b hb hEq.symm)] at this

theorem register_actions_ok_of (l : List PlanAction)
    (acts : List (String × PlanAction)) (abe : List (String × List String))
    (hnd : (l.map PlanAction.name).Nodup)
    (hfresh : ∀ a ∈ l, dictGet acts a.name = none) :
    ∃ x, register_actions l acts abe = .ok x := by
  induction l generalizing acts abe with
  | nil => exact ⟨(acts, abe), rfl⟩
  | cons a rest ih =>
    have hnone := hfresh a (List.mem_cons_self _ _)
    have hrest : ∀ b ∈ rest, dictGet (dictSet acts a.name a) b.name = none := by
      intro b hb
      have hne : a.name ≠ b.name := by
        intro hEq
        exact (List.nodup_cons.mp hnd).1 (List.mem_map.mpr ⟨b, hb, hEq.symm⟩)
      rw [dictGet_dictSet_ne _ _ hne]
      exact hfresh b (List.mem_cons_of_mem _ hb)
    obtain ⟨x, hx⟩ := ih (dictSet acts a.name a)
      (register_events a.name a.listen_event_types abe)
      (List.nodup_cons.mp hnd).2 hrest
    refine ⟨x, ?_⟩
    simp only [register_actions, hnone, Option.isSome_none, Bool.false_eq_true,
      if_false]
    exact hx

theorem lookup2_eq_getD {α : Type} (d : List (ResourceType × List (String × α)))
    (t : ResourceType) (n : String) :
    lookup2 d t n = dictGet ((dictGet d t).getD []) n := by
  unfold lookup2
  cases dictGet d t with
  | none => rfl
  | some b => rfl

theorem register_providers_error (l : List ResourceProvider)
    (reg : List (ResourceType × List (String × ResourceProvider))) (e : PyErr)
    (h : register_providers l reg = .error e) : e = .assertionError := by
  induction l generalizing reg with
  | nil => exact absurd h (by simp [register_providers])
  | cons p rest ih =>
    simp only [register_providers] at h
    split at h
    · exact (Except.error.injEq _ _).mp h |>.symm
    · exact ih _ h

theorem register_providers_preserve (l : List ResourceProvider)
    (reg reg' : List (ResourceType × List (String × ResourceProvider)))
    (h : register_providers l reg = .ok reg') :
    ∀ t n v, lookup2 reg t n = some v → lookup2 reg' t n = some v := by
  induction l generalizing reg with
  | nil =>
    simp only [register_providers, Except.ok.injEq] at h
    rw [← h]
    exact fun _ _ _ hk => hk
  | cons p rest ih =>
    simp only [register_providers] at h
    split at h
    · exact absurd h (by simp)
    · rename_i hs
      intro t n v hk
      have hke : ¬(p.rtype = t ∧ p.name = n) := by
        rintro ⟨rfl, rfl⟩
        rw [lookup2_eq_getD] at hk
        rw [hk] at hs
        exact hs rfl
      refine ih _ h t n v ?_
      show lookup2 (set2 reg p.rtype p.name p) t n = some v
      rw [lookup2_set2, if_neg hke]
      exact hk

theorem register_providers_mem (l : List ResourceProvider)
    (reg reg' : List (ResourceType × List (String × ResourceProvider)))
    (h : register_providers l reg = .ok reg') :
    ∀ p ∈ l, lookup2 reg' p.rtype p.name = some p := by
  induction l generalizing reg with
  | nil => simp
  | cons p rest ih =>
    simp only [register_providers] at h
    split at h
    · exact absurd h (by simp)
    · intro q hq
      rcases List.mem_cons.mp hq with hq | hq
      · subst hq
        refine register_providers_preserve _ _ _ h q.rtype q.name q ?_
        show lookup2 (set2 reg q.rtype q.name q) q.rtype q.name = some q
        rw [lookup2_set2, if_pos ⟨rfl, rfl⟩]
      · exact ih _ h q hq

theorem register_providers_nodup (l : List ResourceProvider)
    (reg reg' : List (ResourceType × List (String × ResourceProvider)))
    (h : register_providers l reg = .ok reg') :
    (l.map (fun p => (p.rtype, p.name))).Nodup ∧
      ∀ p ∈ l, lookup2 reg p.rtype p.name = none := by
  induction l generalizing reg with
  | nil => simp
  | cons p rest ih =>
    simp only [register_providers] at h
    split at h
    · exact absurd h (by simp)
    · rename_i hs
      have hnone : lookup2 reg p.rtype p.name = none := by
        rw [lookup2_eq_getD]
        exact Option.not_isSome_iff_eq_none.mp (by simpa using hs)
      obtain ⟨hnd, hfresh⟩ := ih _ h
      have hne : ∀ q ∈ rest, (q.rtype, q.name) ≠ (p.rtype, p.name) := by
        intro q hq hEq
        have := hfresh q hq
        have h1 : p.rtype = q.rtype ∧ p.name = q.name := by
          obtain ⟨h1, h2⟩ := Prod.mk.injEq .. ▸ hEq
          exact ⟨h1.symm, h2.symm⟩
        rw [show lookup2 (dictSet reg p.rtype
              (dictSet ((dictGet reg p.rtype).getD []) p.name p)) q.rtype q.name =
            lookup2 (set2 reg p.rtype p.name p) q.rtype q.name from rfl,
          lookup2_set2, if_pos h1] at this
        exact absurd this (by simp)
      refine ⟨List.nodup_cons.mpr ⟨?_, hnd⟩, ?_⟩
      · intro hmem
        obtain ⟨q, hq, hEq⟩ := List.mem_map.mp hmem
        exact hne q hq hEq
      · intro q hq
        rcases List.mem_cons.mp hq with hq | hq
        · subst hq; exact hnone
        · have := hfresh q hq
          have hne' : ¬(p.rtype = q.rtype ∧ p.name = q.name) := by
            rintro ⟨h1, h2⟩
            exact hne q hq (by rw [h1, h2])
          rwa [show lookup2 (dictSet reg p.rtype
                (dictSet ((dictGet reg p.rtype).getD []) p.name p)) q.rtype q.name =
              lookup2 (set2 reg p.rtype p.name p) q.rtype q.name from rfl,
            lookup2_set2, if_neg hne'] at this

theorem register_providers_ok_of (l : List ResourceProvider)
    (reg : List (ResourceType × List (String × ResourceProvider)))
    (hnd : (l.map (fun p => (p.rtype, p.name))).Nodup)
    (hfresh : ∀ p ∈ l, lookup2 reg p.rtype p.name = none) :
    ∃ reg', register_providers l reg = .ok reg' := by
  induction l generalizing reg with
  | nil => exact ⟨reg, rfl⟩
  | cons p rest ih =>
    have hnone := hfresh p (List.mem_cons_self _ _)
    have hrest : ∀ q ∈ rest, lookup2 (set2 reg p.rtype p.name p) q.rtype q.name = none := by
      intro q hq
      have hne : ¬(p.rtype = q.rtype ∧ p.name = q.name) := by
        rintro ⟨h1, h2⟩
        exact (List.nodup_cons.mp hnd).1
          (List.mem_map.mpr ⟨q, hq, by show (q.rtype, q.name) = (p.rtype, p.name)
                                       rw [h1, h2]⟩)
      rw [lookup2_set2, if_neg hne]
      exact hfresh q (List.mem_cons_of_mem _ hq)
    obtain ⟨reg', hx⟩ := ih (set2 reg p.rtype p.name p) (List.nodup_cons.mp hnd).2 hrest
    refine ⟨reg', ?_⟩
    simp only [register_providers]
    rw [if_neg (by rw [← lookup2_eq_getD, hnone]; simp)]
    exact hx

/-- Claim C6, amended: `from_agent` fails with the `AssertionError` standing
for `DuplicateNameError` exactly when the gathered action names — including
the two built-in actions it appends — contain a duplicate, or two gathered
resource providers of the same kind share a name; otherwise it succeeds and
the returned plan contains every gathered action and every gathered
provider.  (The claim as stated quantifies only over the declared agent's own
actions; it fails for an agent whose single action reuses a built-in action
name, see the counterexample.) -/
theorem from_agent_unique_names (agent : AgentDecl) :
    ((¬((_get_actions agent ++ BUILT_IN_ACTIONS).map PlanAction.name).Nodup ∨
        ¬((_get_resource_providers agent).map (fun p => (p.rtype, p.name))).Nodup) →
      from_agent agent = .error .assertionError) ∧
    (((_get_actions agent ++ BUILT_IN_ACTIONS).map PlanAction.name).Nodup ∧
        ((_get_resource_providers agent).map (fun p => (p.rtype, p.name))).Nodup →
      ∃ p, from_agent agent = .ok p ∧
        (∀ a ∈ _get_actions agent ++ BUILT_IN_ACTIONS,
          dictGet p.actions a.name = some a) ∧
        ∀ pr ∈ _get_resource_providers agent,
          lookup2 p.resource_providers pr.rtype pr.name = some pr) := by
  constructor
  · intro hdup
    unfold from_agent
    cases h₁ : register_actions (_get_actions agent ++ BUILT_IN_ACTIONS) [] [] with
    | error e => rw [register_actions_error _ _ _ _ h₁]
    | ok x =>
      obtain ⟨acts, abe⟩ := x
      rcases hdup with hdup | hdup
      · exact absurd (register_actions_nodup _ _ _ _ h₁).1 hdup
      · cases h₂ : register_providers (_get_resource_providers agent) [] with
        | error e => rw [register_providers_error _ _ _ h₂]
        | ok reg => exact absurd (register_providers_nodup _ _ _ h₂).1 hdup
  · rintro ⟨hnd₁, hnd₂⟩
    obtain ⟨⟨acts, abe⟩, h₁⟩ := register_actions_ok_of
      (_get_actions agent ++ BUILT_IN_ACTIONS) [] [] hnd₁ (by intro a _; rfl)
    obtain ⟨reg, h₂⟩ := register_providers_ok_of (_get_resource_providers agent) []
      hnd₂ (by intro p _; rfl)
    refine ⟨{ actions := acts, actions_by_event := abe, resource_providers := reg,
              __resources := [] }, ?_, ?_, ?_⟩
    · unfold from_agent
      rw [h₁, h₂]
    · exact register_actions_mem _ _ _ _ _ h₁
    · exact register_providers_mem _ _ _ h₂

/-- A declared agent with a single action that happens to reuse the name of
the built-in model-invocation action. -/
def collide_agent : AgentDecl :=
  { decorated_actions :=
      [ { name := "chat_model_action", exec := "m.user_fn",
          listen_event_types := ["flink_agents.api.events.event.InputEvent"] } ]
    registered_actions := [], decorated_providers := [], prompts := [],
    tools := [], chat_models := [], chat_model_connections := [] }

/-- Claim C6, counterexample: `collide_agent` has no two declared actions
sharing a name and no two providers of one kind sharing a name, yet
compilation fails (the `assert` fires against the appended built-in action of
the same name), so "for all other declared agents compilation succeeds" is
false as stated. -/
theorem from_agent_unique_names_counterexample :
    ((_get_actions collide_agent).map PlanAction.name).Nodup ∧
      ((_get_resource_providers collide_agent).map (fun p => (p.rtype, p.name))).Nodup ∧
      from_agent collide_agent = .error .assertionError :=
  ⟨by decide, by decide, by rfl⟩

/-- Witness for `from_agent_unique_names`: the duplicate side at
`collide_agent`, the success side at `sample_agent`. -/
theorem from_agent_unique_names_witness :
    (¬((_get_actions collide_agent ++ BUILT_IN_ACTIONS).map PlanAction.name).Nodup ∧
      from_agent collide_agent = .error .assertionError) ∧
    ((((_get_actions sample_agent ++ BUILT_IN_ACTIONS).map PlanAction.name).Nodup ∧
        ((_get_resource_providers sample_agent).map (fun p => (p.rtype, p.name))).Nodup) ∧
      ∃ p, from_agent sample_agent = .ok p ∧
        (∀ a ∈ _get_actions sample_agent ++ BUILT_IN_ACTIONS,
          dictGet p.actions a.name = some a) ∧
        ∀ pr ∈ _get_resource_providers sample_agent,
          lookup2 p.resource_providers pr.rtype pr.name = some pr) :=
  ⟨⟨by decide, (from_agent_unique_names collide_agent).1 (Or.inl (by decide))⟩,
   ⟨⟨by decide, by decide⟩,
    (from_agent_unique_names sample_agent).2 ⟨by decide, by decide⟩⟩⟩

/-- Number of `provide` invocations logged for one `(kind, name)` pair. -/
def countC (p : ResourceType × String) : List (ResourceType × String) → Nat
  | [] => 0
  | q :: rest => (if q = p then 1 else 0) + countC p rest

theorem countC_append (p : ResourceType × String) (l₁ l₂ : List (ResourceType × String)) :
    countC p (l₁ ++ l₂) = countC p l₁ + countC p l₂ := by
  induction l₁ with
  | nil => simp [countC]
  | cons q rest ih => simp [countC, ih, Nat.add_assoc]

/-- State evolution along a successful `get_resource` call: the heap counter
never decreases, the immutable plan fields are untouched, and every pair
already cached keeps its exact cached object and gains no further `provide`
invocation. -/
def Mono (s s' : RState) : Prop :=
  s.world.next_id ≤ s'.world.next_id ∧
  s'.plan.resource_providers = s.plan.resource_providers ∧
  ∀ t n r, lookup2 s.plan.__resources t n = some r →
    lookup2 s'.plan.__resources t n = some r ∧
    countC (t, n) s'.world.constructions = countC (t, n) s.world.constructions

theorem mono_refl (s : RState) : Mono s s :=
  ⟨Nat.le_refl _, rfl, fun _ _ _ h => ⟨h, rfl⟩⟩

theorem mono_trans {s₁ s₂ s₃ : RState} (h₁ : Mono s₁ s₂) (h₂ : Mono s₂ s₃) :
    Mono s₁ s₃ := by
  refine ⟨Nat.le_trans h₁.1 h₂.1, h₂.2.1.trans h₁.2.1, ?_⟩
  intro t n r h
  obtain ⟨hc, hk⟩ := h₁.2.2 t n r h
  obtain ⟨hc', hk'⟩ := h₂.2.2 t n r hc
  exact ⟨hc', hk'.trans hk⟩

theorem resolve_list_mono (g : String → ResourceType → RState → Except PyErr Resource × RState)
    (hg : ∀ n t s r s', g n t s = (.ok r, s') → Mono s s') :
    ∀ ds s u s', resolve_list g ds s = (.ok u, s') → Mono s s' := by
  intro ds
  induction ds with
  | nil =>
    intro s u s' h
    simp only [resolve_list, Prod.mk.injEq] at h
    rw [← h.2]
    exact mono_refl s
  | cons q rest ih =>
    obtain ⟨t, n⟩ := q
    intro s u s' h
    simp only [resolve_list] at h
    split at h
    · rename_i r s₁ hgr
      exact mono_trans (hg n t s r s₁ hgr) (ih s₁ u s' h)
    · exact absurd h (by simp)

theorem resolve_list_count
    (g : String → ResourceType → RState → Except PyErr Resource × RState)
    (p : ResourceType × String) :
    ∀ ds s u s',
      (∀ q ∈ ds, ∀ s₁ r s₂, g q.2 q.1 s₁ = (.ok r, s₂) →
        countC p s₂.world.constructions = countC p s₁.world.constructions) →
      resolve_list g ds s = (.ok u, s') →
      countC p s'.world.constructions = countC p s.world.constructions := by
  intro ds
  induction ds with
  | nil =>
    intro s u s' _ h
    simp only [resolve_list, Prod.mk.injEq] at h
    rw [← h.2]
  | cons q rest ih =>
    obtain ⟨t, n⟩ := q
    intro s u s' hg h
    simp only [resolve_list] at h
    split at h
    · rename_i r s₁ hgr
      have h₁ := hg (t, n) (List.mem_cons_self _ _) s r s₁ hgr
      have h₂ := ih s₁ u s'
        (fun q' hq' => hg q' (List.mem_cons_of_mem _ hq')) h
      exact h₂.trans h₁
    · exact absurd h (by simp)

theorem resolve_list_pres
    (g : String → ResourceType → RState → Except PyErr Resource × RState)
    (P : RState → Prop)
    (hg : ∀ n t s r s', g n t s = (.ok r, s') → P s → P s') :
    ∀ ds s u s', resolve_list g ds s = (.ok u, s') → P s → P s' := by
  intro ds
  induction ds with
  | nil =>
    intro s u s' h hP
    simp only [resolve_list, Prod.mk.injEq] at h
    rw [← h.2]
    exact hP
  | cons q rest ih =>
    obtain ⟨t, n⟩ := q
    intro s u s' h hP
    simp only [resolve_list] at h
    split at h
    · rename_i r s₁ hgr
      exact ih s₁ u s' h (hg n t s r s₁ hgr hP)
    · exact absurd h (by simp)

/-- The state after the bucket-ensuring statement of `get_resource`. -/
def mkEnsure (s : RState) (t : ResourceType) : RState :=
  { s with plan := { s.plan with __resources := ensure_bucket s.plan.__resources t } }

/-- The state at entry to `provide`: bucket ensured, invocation logged. -/
def mkMiss (s : RState) (t : ResourceType) (n : String) : RState :=
  { plan := { s.plan with __resources := ensure_bucket s.plan.__resources t },
    world := { s.world with constructions := s.world.constructions ++ [(t, n)] } }

/-- The state after storing the freshly constructed resource. -/
def mkDone (s' : RState) (t : ResourceType) (n : String) : RState :=
  { plan := { s'.plan with
      __resources := set2 s'.plan.__resources t n ⟨t, n, s'.world.next_id⟩ },
    world := { s'.world with next_id := s'.world.next_id + 1 } }

theorem get_resource_zero
    (deps : List ((ResourceType × String) × List (ResourceType × String)))
    (n : String) (t : ResourceType) (s : RState) :
    get_resource deps 0 n t s = (.error .recursionError, s) := rfl

theorem get_resource_succ_cached
    (deps : List ((ResourceType × String) × List (ResourceType × String)))
    (fuel : Nat) (n : String) (t : ResourceType) (s : RState) (r : Resource)
    (h : lookup2 s.plan.__resources t n = some r) :
    get_resource deps (fuel + 1) n t s = (.ok r, s) := by
  obtain ⟨b, hb⟩ : ∃ b, dictGet s.plan.__resources t = some b := by
    unfold lookup2 at h
    cases hd : dictGet s.plan.__resources t with
    | none => rw [hd] at h; exact absurd h (by simp)
    | some b => exact ⟨b, rfl⟩
  have he : ensure_bucket s.plan.__resources t = s.plan.__resources := by
    unfold ensure_bucket
    rw [hb]
  simp only [get_resource, he, h]

theorem get_resource_succ_noprov
    (deps : List ((ResourceType × String) × List (ResourceType × String)))
    (fuel : Nat) (n : String) (t : ResourceType) (s : RState)
    (hc : lookup2 s.plan.__resources t n = none)
    (hp : lookup2 s.plan.resource_providers t n = none) :
    get_resource deps (fuel + 1) n t s = (.error .keyError, mkEnsure s t) := by
  have hc' : lookup2 (ensure_bucket s.plan.__resources t) t n = none := by
    rw [lookup2_ensure_bucket]; exact hc
  simp only [get_resource, hc', hp, mkEnsure]

theorem get_resource_succ_miss
    (deps : List ((ResourceType × String) × List (ResourceType × String)))
    (fuel : Nat) (n : String) (t : ResourceType) (s : RState) (pr : ResourceProvider)
    (hc : lookup2 s.plan.__resources t n = none)
    (hp : lookup2 s.plan.resource_providers t n = some pr) :
    get_resource deps (fuel + 1) n t s =
      match resolve_list (get_resource deps fuel) (depsOf deps t n) (mkMiss s t n) with
      | (.error e, s') => (.error e, s')
      | (.ok _, s') => (.ok ⟨t, n, s'.world.next_id⟩, mkDone s' t n) := by
  have hc' : lookup2 (ensure_bucket s.plan.__resources t) t n = none := by
    rw [lookup2_ensure_bucket]; exact hc
  simp only [get_resource, hc', hp, mkMiss, mkDone]
  cases hres : resolve_list (get_resource deps fuel) (depsOf deps t n)
      { plan := { s.plan with __resources := ensure_bucket s.plan.__resources t },
        world := { s.world with constructions := s.world.constructions ++ [(t, n)] } } with
  | mk res s' =>
    cases res with
    | error e => rfl
    | ok u =>
      have hset : lookup2 (set2 s'.plan.__resources t n ⟨t, n, s'.world.next_id⟩) t n =
          some ⟨t, n, s'.world.next_id⟩ := by
        rw [lookup2_set2, if_pos ⟨rfl, rfl⟩]
      simp only [hset]

theorem get_resource_ok_lookup
    (deps : List ((ResourceType × String) × List (ResourceType × String)))
    (fuel : Nat) (n : String) (t : ResourceType) (s : RState) (r : Resource)
    (s' : RState) (h : get_resource deps fuel n t s = (.ok r, s')) :
    lookup2 s'.plan.__resources t n = some r := by
  cases fuel with
  | zero => exact absurd (get_resource_zero deps n t s ▸ h) (by simp)
  | succ fuel =>
    cases hc : lookup2 s.plan.__resources t n with
    | some r₀ =>
      rw [get_resource_succ_cached deps fuel n t s r₀ hc] at h
      obtain ⟨hr, hs⟩ := Prod.mk.injEq .. ▸ h
      rw [← hs, hc, (Except.ok.injEq .. ▸ hr : r₀ = r)]
    | none =>
      cases hp : lookup2 s.plan.resource_providers t n with
      | none =>
        rw [get_resource_succ_noprov deps fuel n t s hc hp] at h
        exact absurd h (by simp)
      | some pr =>
        rw [get_resource_succ_miss deps fuel n t s pr hc hp] at h
        cases hres : resolve_list (get_resource deps fuel) (depsOf deps t n)
            (mkMiss s t n) with
        | mk res s₂ =>
          rw [hres] at h
          cases res with
          | error e => exact absurd h (by simp)
          | ok u =>
            simp only [Prod.mk.injEq, Except.ok.injEq] at h
            rw [← h.2, ← h.1]
            show lookup2 (set2 s₂.plan.__resources t n _) t n = _
            rw [lookup2_set2, if_pos ⟨rfl, rfl⟩]

theorem get_resource_mono
    (deps : List ((ResourceType × String) × List (ResourceType × String))) :
    ∀ (fuel : Nat) (n : String) (t : ResourceType) (s : RState) (r : Resource)
      (s' : RState), get_resource deps fuel n t s = (.ok r, s') → Mono s s' := by
  intro fuel
  induction fuel with
  | zero =>
    intro n t s r s' h
    exact absurd (get_resource_zero deps n t s ▸ h) (by simp)
  | succ fuel ih =>
    intro n t s r s' h
    cases hc : lookup2 s.plan.__resources t n with
    | some r₀ =>
      rw [get_resource_succ_cached deps fuel n t s r₀ hc] at h
      obtain ⟨_, hs⟩ := Prod.mk.injEq .. ▸ h
      rw [← hs]
      exact mono_refl s
    | none =>
      cases hp : lookup2 s.plan.resource_providers t n with
      | none =>
        rw [get_resource_succ_noprov deps fuel n t s hc hp] at h
        exact absurd h (by simp)
      | some pr =>
        rw [get_resource_succ_miss deps fuel n t s pr hc hp] at h
        cases hres : resolve_list (get_resource deps fuel) (depsOf deps t n)
            (mkMiss s t n) with
        | mk res s₂ =>
          rw [hres] at h
          cases res with
          | error e => exact absurd h (by simp)
          | ok u =>
            simp only [Prod.mk.injEq, Except.ok.injEq] at h
            have hmono : Mono (mkMiss s t n) s₂ :=
              resolve_list_mono (get_resource deps fuel) ih (depsOf deps t n)
                (mkMiss s t n) u s₂ hres
            rw [← h.2]
            refine ⟨?_, ?_, ?_⟩
            · exact Nat.le_trans hmono.1 (Nat.le_succ _)
            · exact hmono.2.1
            · intro t' n' r' hcached
              have hne : ¬(t = t' ∧ n = n') := by
                rintro ⟨rfl, rfl⟩
                rw [hcached] at hc
                exact absurd hc (by simp)
              have hmiss : lookup2 (mkMiss s t n).plan.__resources t' n' = some r' := by
                show lookup2 (ensure_bucket s.plan.__resources t) t' n' = some r'
                rw [lookup2_ensure_bucket]
                exact hcached
              obtain ⟨hc₂, hk₂⟩ := hmono.2.2 t' n' r' hmiss
              constructor
              · show lookup2 (set2 s₂.plan.__resources t n _) t' n' = some r'
                rw [lookup2_set2, if_neg hne]
                exact hc₂
              · show countC (t', n') s₂.world.constructions = _
                rw [hk₂]
                show countC (t', n') (s.world.constructions ++ [(t, n)]) = _
                rw [countC_append]
                have hz : countC (t', n') [(t, n)] = 0 := by
                  simp only [countC]
                  rw [if_neg (by rintro ⟨rfl, rfl⟩; exact hne ⟨rfl, rfl⟩)]
                rw [hz, Nat.add_zero]

/-- A ranking certifying that the static provider dependency graph is
acyclic: along every dependency edge the rank strictly drops. -/
def RankedDeps (deps : List ((ResourceType × String) × List (ResourceType × String)))
    (rank : ResourceType × String → Nat) : Prop :=
  ∀ e ∈ deps, ∀ q ∈ e.2, rank q < rank e.1

theorem depsOf_rank {deps : List ((ResourceType × String) × List (ResourceType × String))}
    {rank : ResourceType × String → Nat} (hr : RankedDeps deps rank)
    {t : ResourceType} {n : String} {q : ResourceType × String}
    (hq : q ∈ depsOf deps t n) : rank q < rank (t, n) := by
  unfold depsOf at hq
  cases hd : dictGet deps (t, n) with
  | none => rw [hd] at hq; exact absurd hq (by simp)
  | some l =>
    rw [hd] at hq
    exact hr ((t, n), l) (dictGet_mem hd) q hq

theorem get_resource_count_high
    (deps : List ((ResourceType × String) × List (ResourceType × String)))
    (rank : ResourceType × String → Nat) (hr : RankedDeps deps rank) :
    ∀ (fuel : Nat) (n : String) (t : ResourceType) (s : RState) (r : Resource)
      (s' : RState), get_resource deps fuel n t s = (.ok r, s') →
      ∀ p, rank (t, n) < rank p →
        countC p s'.world.constructions = countC p s.world.constructions := by
  intro fuel
  induction fuel with
  | zero =>
    intro n t s r s' h
    exact absurd (get_resource_zero deps n t s ▸ h) (by simp)
  | succ fuel ih =>
    intro n t s r s' h p hp
    cases hc : lookup2 s.plan.__resources t n with
    | some r₀ =>
      rw [get_resource_succ_cached deps fuel n t s r₀ hc] at h
      obtain ⟨_, hs⟩ := Prod.mk.injEq .. ▸ h
      rw [← hs]
    | none =>
      cases hpr : lookup2 s.plan.resource_providers t n with
      | none =>
        rw [get_resource_succ_noprov deps fuel n t s hc hpr] at h
        exact absurd h (by simp)
      | some pr =>
        rw [get_resource_succ_miss deps fuel n t s pr hc hpr] at h
        cases hres : resolve_list (get_resource deps fuel) (depsOf deps t n)
            (mkMiss s t n) with
        | mk res s₂ =>
          rw [hres] at h
          cases res with
          | error e => exact absurd h (by simp)
          | ok u =>
            simp only [Prod.mk.injEq, Except.ok.injEq] at h
            have hcnt : countC p s₂.world.constructions =
                countC p (mkMiss s t n).world.constructions := by
              refine resolve_list_count (get_resource deps fuel) p (depsOf deps t n)
                (mkMiss s t n) u s₂ ?_ hres
              intro q hq s₁ r₁ sq hcall
              exact ih q.2 q.1 s₁ r₁ sq hcall p
                (Nat.lt_trans (depsOf_rank hr hq) hp)
            rw [← h.2]
            show countC p s₂.world.constructions = _
            rw [hcnt]
            show countC p (s.world.constructions ++ [(t, n)]) = _
            rw [countC_append]
            have hz : countC p [(t, n)] = 0 := by
              simp only [countC]
              rw [if_neg (by rintro rfl; exact Nat.lt_irrefl _ hp)]
            rw [hz, Nat.add_zero]

theorem get_resource_first_count
    (deps : List ((ResourceType × String) × List (ResourceType × String)))
    (rank : ResourceType × String → Nat) (hr : RankedDeps deps rank)
    (fuel : Nat) (n : String) (t : ResourceType) (s : RState) (r : Resource)
    (s' : RState) (h : get_resource deps fuel n t s = (.ok r, s'))
    (hc : lookup2 s.plan.__resources t n = none) :
    countC (t, n) s'.world.constructions =
      countC (t, n) s.world.constructions + 1 := by
  cases fuel with
  | zero => exact absurd (get_resource_zero deps n t s ▸ h) (by simp)
  | succ fuel =>
    cases hpr : lookup2 s.plan.resource_providers t n with
    | none =>
      rw [get_resource_succ_noprov deps fuel n t s hc hpr] at h
      exact absurd h (by simp)
    | some pr =>
      rw [get_resource_succ_miss deps fuel n t s pr hc hpr] at h
      cases hres : resolve_list (get_resource deps fuel) (depsOf deps t n)
          (mkMiss s t n) with
      | mk res s₂ =>
        rw [hres] at h
        cases res with
        | error e => exact absurd h (by simp)
        | ok u =>
          simp only [Prod.mk.injEq, Except.ok.injEq] at h
          have hcnt : countC (t, n) s₂.world.constructions =
              countC (t, n) (mkMiss s t n).world.constructions := by
            refine resolve_list_count (get_resource deps fuel) (t, n) (depsOf deps t n)
              (mkMiss s t n) u s₂ ?_ hres
            intro q hq s₁ r₁ sq hcall
            exact get_resource_count_high deps rank hr fuel q.2 q.1 s₁ r₁ sq hcall
              (t, n) (depsOf_rank hr hq)
          rw [← h.2]
          show countC (t, n) s₂.world.constructions = _
          rw [hcnt]
          show countC (t, n) (s.world.constructions ++ [(t, n)]) = _
          rw [countC_append]
          simp [countC]

/-- Every object stored in the plan's cache was allocated before the heap's
current allocation counter. -/
def CacheBounded (s : RState) : Prop :=
  ∀ t n r, lookup2 s.plan.__resources t n = some r → r.obj_id < s.world.next_id

theorem get_resource_bounded
    (deps : List ((ResourceType × String) × List (ResourceType × String))) :
    ∀ (fuel : Nat) (n : String) (t : ResourceType) (s : RState) (r : Resource)
      (s' : RState), get_resource deps fuel n t s = (.ok r, s') →
      CacheBounded s → CacheBounded s' := by
  intro fuel
  induction fuel with
  | zero =>
    intro n t s r s' h
    exact absurd (get_resource_zero deps n t s ▸ h) (by simp)
  | succ fuel ih =>
    intro n t s r s' h hb
    cases hc : lookup2 s.plan.__resources t n with
    | some r₀ =>
      rw [get_resource_succ_cached deps fuel n t s r₀ hc] at h
      obtain ⟨_, hs⟩ := Prod.mk.injEq .. ▸ h
      rw [← hs]
      exact hb
    | none =>
      cases hpr : lookup2 s.plan.resource_providers t n with
      | none =>
        rw [get_resource_succ_noprov deps fuel n t s hc hpr] at h
        exact absurd h (by simp)
      | some pr =>
        rw [get_resource_succ_miss deps fuel n t s pr hc hpr] at h
        cases hres : resolve_list (get_resource deps fuel) (depsOf deps t n)
            (mkMiss s t n) with
        | mk res s₂ =>
          rw [hres] at h
          cases res with
          | error e => exact absurd h (by simp)
          | ok u =>
            simp only [Prod.mk.injEq, Except.ok.injEq] at h
            have hbm : CacheBounded (mkMiss s t n) := by
              intro t' n' r' hl
              have : lookup2 s.plan.__resources t' n' = some r' := by
                rw [← lookup2_ensure_bucket s.plan.__resources t t' n']
                exact hl
              exact hb t' n' r' this
            have hb₂ : CacheBounded s₂ :=
              resolve_list_pres (get_resource deps fuel) CacheBounded
                (fun n₁ t₁ sa r₁ sb hcall hP => ih n₁ t₁ sa r₁ sb hcall hP)
                (depsOf deps t n) (mkMiss s t n) u s₂ hres hbm
            rw [← h.2]
            intro t' n' r' hl
            show r'.obj_id < s₂.world.next_id + 1
            by_cases he : t = t' ∧ n = n'
            · rw [show lookup2 (mkDone s₂ t n).plan.__resources t' n' =
                  lookup2 (set2 s₂.plan.__resources t n ⟨t, n, s₂.world.next_id⟩) t' n'
                  from rfl, lookup2_set2, if_pos he] at hl
              rw [show r' = ⟨t, n, s₂.world.next_id⟩ from by
                injection hl with hl'; exact hl'.symm]
              exact Nat.lt_succ_self _
            · rw [show lookup2 (mkDone s₂ t n).plan.__resources t' n' =
                  lookup2 (set2 s₂.plan.__resources t n ⟨t, n, s₂.world.next_id⟩) t' n'
                  from rfl, lookup2_set2, if_neg he] at hl
              exact Nat.lt_succ_of_lt (hb₂ t' n' r' hl)

theorem get_resource_fresh_lower
    (deps : List ((ResourceType × String) × List (ResourceType × String)))
    (fuel : Nat) (n : String) (t : ResourceType) (s : RState) (r : Resource)
    (s' : RState) (h : get_resource deps fuel n t s = (.ok r, s'))
    (hc : lookup2 s.plan.__resources t n = none) :
    s.world.next_id ≤ r.obj_id := by
  cases fuel with
  | zero => exact absurd (get_resource_zero deps n t s ▸ h) (by simp)
  | succ fuel =>
    cases hpr : lookup2 s.plan.resource_providers t n with
    | none =>
      rw [get_resource_succ_noprov deps fuel n t s hc hpr] at h
      exact absurd h (by simp)
    | some pr =>
      rw [get_resource_succ_miss deps fuel n t s pr hc hpr] at h
      cases hres : resolve_list (get_resource deps fuel) (depsOf deps t n)
          (mkMiss s t n) with
      | mk res s₂ =>
        rw [hres] at h
        cases res with
        | error e => exact absurd h (by simp)
        | ok u =>
          simp only [Prod.mk.injEq, Except.ok.injEq] at h
          have hmono : Mono (mkMiss s t n) s₂ :=
            resolve_list_mono (get_resource deps fuel)
              (fun n₁ t₁ sa r₁ sb hcall => get_resource_mono deps fuel n₁ t₁ sa r₁ sb hcall)
              (depsOf deps t n) (mkMiss s t n) u s₂ hres
          rw [← h.1]
          exact hmono.1

/-- Claim C1: on one plan instance, once `get_resource` has succeeded for a
`(kind, name)` pair, (i) the first successful resolution invoked the
provider's instantiation logic exactly once more than before (under an
acyclicity ranking of the static dependency graph — a cyclic graph never
resolves successfully, see the cycle theorems), (ii) every subsequent
`get_resource` call for the same pair returns the identical cached object —
same allocation identity — and leaves the state, hence the invocation log,
completely unchanged, and (iii) any successful later call for any pair keeps
that pair cached at the same object and never invokes its provider again. -/
theorem get_resource_single_instantiation
    (deps : List ((ResourceType × String) × List (ResourceType × String)))
    (rank : ResourceType × String → Nat) (hr : RankedDeps deps rank)
    (fuel : Nat) (n : String) (t : ResourceType) (s : RState) (r : Resource)
    (s' : RState) (h : get_resource deps fuel n t s = (.ok r, s'))
    (hc : lookup2 s.plan.__resources t n = none) :
    countC (t, n) s'.world.constructions = countC (t, n) s.world.constructions + 1 ∧
    (∀ fuel₂, get_resource deps (fuel₂ + 1) n t s' = (.ok r, s')) ∧
    ∀ fuel₃ n₃ t₃ r₃ s₃, get_resource deps fuel₃ n₃ t₃ s' = (.ok r₃, s₃) →
      lookup2 s₃.plan.__resources t n = some r ∧
      countC (t, n) s₃.world.constructions = countC (t, n) s'.world.constructions := by
  have hcached : lookup2 s'.plan.__resources t n = some r :=
    get_resource_ok_lookup deps fuel n t s r s' h
  refine ⟨get_resource_first_count deps rank hr fuel n t s r s' h hc, ?_, ?_⟩
  · intro fuel₂
    exact get_resource_succ_cached deps fuel₂ n t s' r hcached
  · intro fuel₃ n₃ t₃ r₃ s₃ h₃
    exact (get_resource_mono deps fuel₃ n₃ t₃ s' r₃ s₃ h₃).2.2 t n r hcached

/-- A plan holding one dependency-free tool provider, used as concrete input
for the resolver witnesses. -/
def tool_plan : AgentPlan :=
  { actions := [], actions_by_event := [],
    resource_providers := [(.tool, [("calc", .pythonSerializable "calc" .tool "snap")])],
    __resources := [] }

/-- Fresh state over `tool_plan`. -/
def tool_state : RState :=
  { plan := tool_plan, world := { next_id := 0, constructions := [] } }

/-- The state after resolving `(tool, "calc")` once on `tool_state`. -/
def tool_state1 : RState := (get_resource [] 1 "calc" .tool tool_state).2

/-- Witness for `get_resource_single_instantiation` on a dependency-free
provider graph. -/
theorem get_resource_single_instantiation_witness :
    RankedDeps [] (fun _ => 0) ∧
    get_resource [] 1 "calc" .tool tool_state =
      (.ok ⟨.tool, "calc", 0⟩, tool_state1) ∧
    lookup2 tool_state.plan.__resources .tool "calc" = none ∧
    (countC (.tool, "calc") tool_state1.world.constructions =
        countC (.tool, "calc") tool_state.world.constructions + 1 ∧
      (∀ fuel₂, get_resource [] (fuel₂ + 1) "calc" .tool tool_state1 =
        (.ok ⟨.tool, "calc", 0⟩, tool_state1)) ∧
      ∀ fuel₃ n₃ t₃ r₃ s₃, get_resource [] fuel₃ n₃ t₃ tool_state1 = (.ok r₃, s₃) →
        lookup2 s₃.plan.__resources .tool "calc" = some ⟨.tool, "calc", 0⟩ ∧
        countC (.tool, "calc") s₃.world.constructions =
          countC (.tool, "calc") tool_state1.world.constructions) :=
  ⟨fun e he => absurd he (List.not_mem_nil e), by rfl, by rfl,
   get_resource_single_instantiation [] (fun _ => 0)
     (fun e he => absurd he (List.not_mem_nil e)) 1 "calc" .tool tool_state
     ⟨.tool, "calc", 0⟩ tool_state1 (by rfl) (by rfl)⟩

/-- Claim C7: resolving a pair that is neither cached nor present in the
resource-provider registry fails with `KeyError` — the spec's
`ResourceNotFoundError`, raised by the failed index
`self.resource_providers[type][name]` — and the failure adds no resource to
and removes none from the cache (every `(kind, name)` lookup is unchanged; the
only mutation is the empty kind bucket `self.__resources[type] = {}`, which
holds no resource), leaves the heap and the registry untouched, and is
propagated to the caller as a raised exception, not retried or swallowed. -/
theorem get_resource_not_found
    (deps : List ((ResourceType × String) × List (ResourceType × String)))
    (fuel : Nat) (n : String) (t : ResourceType) (s : RState)
    (hc : lookup2 s.plan.__resources t n = none)
    (hp : lookup2 s.plan.resource_providers t n = none) :
    get_resource deps (fuel + 1) n t s = (.error .keyError, mkEnsure s t) ∧
    (∀ t' n', lookup2 (mkEnsure s t).plan.__resources t' n' =
      lookup2 s.plan.__resources t' n') ∧
    (mkEnsure s t).world = s.world ∧
    (mkEnsure s t).plan.resource_providers = s.plan.resource_providers := by
  refine ⟨get_resource_succ_noprov deps fuel n t s hc hp, ?_, rfl, rfl⟩
  intro t' n'
  exact lookup2_ensure_bucket s.plan.__resources t t' n'

/-- Witness for `get_resource_not_found`: the pair `(prompt, "missing")` is
declared by no provider of `tool_plan`. -/
theorem get_resource_not_found_witness :
    lookup2 tool_state.plan.__resources .prompt "missing" = none ∧
    lookup2 tool_state.plan.resource_providers .prompt "missing" = none ∧
    (get_resource [] 3 "missing" .prompt tool_state =
        (.error .keyError, mkEnsure tool_state .prompt) ∧
      (∀ t' n', lookup2 (mkEnsure tool_state .prompt).plan.__resources t' n' =
        lookup2 tool_state.plan.__resources t' n') ∧
      (mkEnsure tool_state .prompt).world = tool_state.world ∧
      (mkEnsure tool_state .prompt).plan.resource_providers =
        tool_state.plan.resource_providers) :=
  ⟨by rfl, by rfl,
   get_resource_not_found [] 2 "missing" .prompt tool_state (by rfl) (by rfl)⟩

/-- Claim C9: the resource cache is owned per plan instance (pydantic
deep-copies the `{}` private-attribute default into each instance, so two
`AgentPlan` instances hold disjoint `__resources` dicts).  First-time
resolutions of the same `(kind, name)` on two distinct plan instances sharing
one heap each invoke the provider once — two constructions in total — and
produce two distinct objects: the second plan's result is never the first
plan's instance, nor any object stored in the first plan's cache. -/
theorem get_resource_cache_per_instance
    (deps : List ((ResourceType × String) × List (ResourceType × String)))
    (rank : ResourceType × String → Nat) (hr : RankedDeps deps rank)
    (p1 p2 : AgentPlan) (w0 : World) (fuel₁ fuel₂ : Nat) (t : ResourceType)
    (n : String) (r1 r2 : Resource) (s1 s2 : RState)
    (hb1 : CacheBounded { plan := p1, world := w0 })
    (hc1 : lookup2 p1.__resources t n = none)
    (hc2 : lookup2 p2.__resources t n = none)
    (h1 : get_resource deps fuel₁ n t { plan := p1, world := w0 } = (.ok r1, s1))
    (h2 : get_resource deps fuel₂ n t { plan := p2, world := s1.world } = (.ok r2, s2)) :
    r1.obj_id ≠ r2.obj_id ∧
    countC (t, n) s1.world.constructions = countC (t, n) w0.constructions + 1 ∧
    countC (t, n) s2.world.constructions =
      countC (t, n) s1.world.constructions + 1 ∧
    ∀ t' n' r', lookup2 s1.plan.__resources t' n' = some r' → r' ≠ r2 := by
  have hbnd1 : CacheBounded s1 :=
    get_resource_bounded deps fuel₁ n t _ r1 s1 h1 hb1
  have hupper : r1.obj_id < s1.world.next_id :=
    hbnd1 t n r1 (get_resource_ok_lookup deps fuel₁ n t _ r1 s1 h1)
  have hlower : s1.world.next_id ≤ r2.obj_id :=
    get_resource_fresh_lower deps fuel₂ n t { plan := p2, world := s1.world }
      r2 s2 h2 hc2
  refine ⟨?_, ?_, ?_, ?_⟩
  · exact Nat.ne_of_lt (Nat.lt_of_lt_of_le hupper hlower)
  · exact get_resource_first_count deps rank hr fuel₁ n t _ r1 s1 h1 hc1
  · exact get_resource_first_count deps rank hr fuel₂ n t
      { plan := p2, world := s1.world } r2 s2 h2 hc2
  · intro t' n' r' hl hEq
    have : r'.obj_id < s1.world.next_id := hbnd1 t' n' r' hl
    rw [hEq] at this
    exact Nat.lt_irrefl _ (Nat.lt_of_le_of_lt hlower this)

/-- Witness for `get_resource_cache_per_instance`: two fresh `tool_plan`
instances over one heap. -/
theorem get_resource_cache_per_instance_witness :
    RankedDeps [] (fun _ => 0) ∧
    CacheBounded { plan := tool_plan, world := { next_id := 0, constructions := [] } } ∧
    lookup2 tool_plan.__resources .tool "calc" = none ∧
    get_resource [] 1 "calc" .tool
        { plan := tool_plan, world := { next_id := 0, constructions := [] } } =
      (.ok ⟨.tool, "calc", 0⟩, tool_state1) ∧
    get_resource [] 1 "calc" .tool { plan := tool_plan, world := tool_state1.world } =
      (.ok ⟨.tool, "calc", 1⟩, (get_resource [] 1 "calc" .tool
        { plan := tool_plan, world := tool_state1.world }).2) ∧
    ((⟨.tool, "calc", 0⟩ : Resource).obj_id ≠ (⟨.tool, "calc", 1⟩ : Resource).obj_id ∧
      countC (.tool, "calc") tool_state1.world.constructions =
        countC (.tool, "calc") ({ next_id := 0, constructions := [] } : World).constructions + 1 ∧
      countC (.tool, "calc") (get_resource [] 1 "calc" .tool
          { plan := tool_plan, world := tool_state1.world }).2.world.constructions =
        countC (.tool, "calc") tool_state1.world.constructions + 1 ∧
      ∀ t' n' r', lookup2 tool_state1.plan.__resources t' n' = some r' →
        r' ≠ ⟨.tool, "calc", 1⟩) :=
  ⟨fun e he => absurd he (List.not_mem_nil e),
   fun t n r h => absurd h (by simp [tool_plan, lookup2, dictGet]),
   by rfl, by rfl, by rfl,
   get_resource_cache_per_instance [] (fun _ => 0)
     (fun e he => absurd he (List.not_mem_nil e)) tool_plan tool_plan
     { next_id := 0, constructions := [] } 1 1 .tool "calc"
     ⟨.tool, "calc", 0⟩ ⟨.tool, "calc", 1⟩ tool_state1
     (get_resource [] 1 "calc" .tool { plan := tool_plan, world := tool_state1.world }).2
     (fun t n r h => absurd h (by simp [tool_plan, lookup2, dictGet]))
     (by rfl) (by rfl) (by rfl) (by rfl)⟩

/-- A two-provider cyclic graph: resource `A`'s construction resolves `B`, and
`B`'s construction resolves `A`. -/
def cyc_deps : List ((ResourceType × String) × List (ResourceType × String)) :=
  [((.tool, "A"), [(.tool, "B")]), ((.tool, "B"), [(.tool, "A")])]

/-- A plan declaring the two mutually dependent providers `A` and `B`. -/
def cyc_plan : AgentPlan :=
  { actions := [], actions_by_event := [],
    resource_providers :=
      [(.tool, [("A", .pythonSerializable "A" .tool "a"),
                ("B", .pythonSerializable "B" .tool "b")])],
    __resources := [] }

theorem cyc_diverges_aux :
    ∀ (fuel : Nat) (s : RState),
      s.plan.resource_providers = cyc_plan.resource_providers →
      lookup2 s.plan.__resources .tool "A" = none →
      lookup2 s.plan.__resources .tool "B" = none →
      (get_resource cyc_deps fuel "A" .tool s).1 = .error .recursionError ∧
      (get_resource cyc_deps fuel "B" .tool s).1 = .error .recursionError := by
  intro fuel
  induction fuel with
  | zero =>
    intro s _ _ _
    exact ⟨by rw [get_resource_zero], by rw [get_resource_zero]⟩
  | succ fuel ih =>
    intro s hpv hA hB
    have hmk : ∀ nm : String,
        (mkMiss s .tool nm).plan.resource_providers = cyc_plan.resource_providers ∧
        lookup2 (mkMiss s .tool nm).plan.__resources .tool "A" = none ∧
        lookup2 (mkMiss s .tool nm).plan.__resources .tool "B" = none := by
      intro nm
      refine ⟨hpv, ?_, ?_⟩
      · show lookup2 (ensure_bucket s.plan.__resources .tool) .tool "A" = none
        rw [lookup2_ensure_bucket]; exact hA
      · show lookup2 (ensure_bucket s.plan.__resources .tool) .tool "B" = none
        rw [lookup2_ensure_bucket]; exact hB
    constructor
    · have hp : lookup2 s.plan.resource_providers .tool "A" =
          some (.pythonSerializable "A" .tool "a") := by rw [hpv]; rfl
      rw [get_resource_succ_miss cyc_deps fuel "A" .tool s _ hA hp]
      rw [show depsOf cyc_deps .tool "A" = [(.tool, "B")] from rfl]
      cases hcall : get_resource cyc_deps fuel "B" .tool (mkMiss s .tool "A") with
      | mk res st =>
        have hres : res = .error .recursionError := by
          have h2 := (ih (mkMiss s .tool "A") (hmk "A").1 (hmk "A").2.1 (hmk "A").2.2).2
          rw [hcall] at h2
          exact h2
        subst hres
        simp only [resolve_list, hcall]
    · have hp : lookup2 s.plan.resource_providers .tool "B" =
          some (.pythonSerializable "B" .tool "b") := by rw [hpv]; rfl
      rw [get_resource_succ_miss cyc_deps fuel "B" .tool s _ hB hp]
      rw [show depsOf cyc_deps .tool "B" = [(.tool, "A")] from rfl]
      cases hcall : get_resource cyc_deps fuel "A" .tool (mkMiss s .tool "B") with
      | mk res st =>
        have hres : res = .error .recursionError := by
          have h2 := (ih (mkMiss s .tool "B") (hmk "B").1 (hmk "B").2.1 (hmk "B").2.2).1
          rw [hcall] at h2
          exact h2
        subst hres
        simp only [resolve_list, hcall]

/-- Claim C2, counterexample: on the concrete cyclic graph `A ↔ B`, resolving
`A` with recursion budget 12 exhausts the budget — the Python interpreter's
`RecursionError` — rather than failing with any cycle-detection error; no
`CyclicResourceDependencyError` exists anywhere in the code, and `PyErr`, the
sum of every exception this layer can raise, has no such variant. -/
theorem get_resource_cycle_counterexample :
    (get_resource cyc_deps 12 "A" .tool
      { plan := cyc_plan, world := { next_id := 0, constructions := [] } }).1 =
      .error .recursionError := by
  exact (cyc_diverges_aux 12
    { plan := cyc_plan, world := { next_id := 0, constructions := [] } }
    rfl rfl rfl).1

/-- Claim C2, amended: `get_resource` performs no cycle detection and keeps no
in-progress marker; on a provider graph where `A`'s construction resolves `B`
and `B`'s resolves `A`, resolution recurses indefinitely — for every recursion
budget it exhausts the budget and surfaces the interpreter's
`RecursionError`, never a `CyclicResourceDependencyError` (which the code
does not define). -/
theorem get_resource_cycle_diverges (fuel : Nat) :
    (get_resource cyc_deps fuel "A" .tool
      { plan := cyc_plan, world := { next_id := 0, constructions := [] } }).1 =
      .error .recursionError ∧
    (get_resource cyc_deps fuel "B" .tool
      { plan := cyc_plan, world := { next_id := 0, constructions := [] } }).1 =
      .error .recursionError :=
  cyc_diverges_aux fuel
    { plan := cyc_plan, world := { next_id := 0, constructions := [] } }
    rfl rfl rfl

/-- The last binding of a key in a sequence of key/value pairs — the value a
sequential key-by-key overwrite leaves in place. -/
def lookup_last : List (String × String) → String → Option String
  | [], _ => none
  | kv :: rest, key =>
    match lookup_last rest key with
    | some v => some v
    | none => if kv.1 = key then some kv.2 else none

theorem dictGet_foldl_dictSet (args : List (String × String))
    (d : List (String × String)) (key : String) :
    dictGet (args.foldl (fun acc kv => dictSet acc kv.1 kv.2) d) key =
      match lookup_last args key with
      | some v => some v
      | none => dictGet d key := by
  induction args generalizing d with
  | nil => simp [lookup_last]
  | cons kv rest ih =>
    simp only [List.foldl_cons, lookup_last, ih, dictGet_dictSet]
    cases lookup_last rest key with
    | some v => rfl
    | none =>
      by_cases hk : kv.1 = key <;> simp [hk]

theorem merged_extra_args_join (msgs : List ChatMessage) :
    merged_extra_args msgs =
      ((msgs.map (fun m => m.extra_args)).flatten).foldl
        (fun acc kv => dictSet acc kv.1 kv.2) [] := by
  suffices h : ∀ (l : List ChatMessage) (d : List (String × String)),
      l.foldl (fun acc m => dict_update acc m.extra_args) d =
        ((l.map (fun m => m.extra_args)).flatten).foldl
          (fun acc kv => dictSet acc kv.1 kv.2) d by
    exact h msgs []
  intro l
  induction l with
  | nil => intro d; simp
  | cons m rest ih =>
    intro d
    simp only [List.foldl_cons, List.map_cons, List.flatten_cons, List.foldl_append,
      ih]
    rfl

/-- The merged extra keyword context maps each key to its last binding across
all messages, in message order — later messages override earlier ones. -/
theorem merged_extra_args_spec (msgs : List ChatMessage) (key : String) :
    dictGet (merged_extra_args msgs) key =
      lookup_last ((msgs.map (fun m => m.extra_args)).flatten) key := by
  rw [merged_extra_args_join, dictGet_foldl_dictSet]
  cases lookup_last ((msgs.map (fun m => m.extra_args)).flatten) key with
  | some v => rfl
  | none => rfl

/-- Claim C8: `ChatModelSettings.chat(messages)` resolves its connection by
name through the resolver; with a declared prompt it resolves the prompt by
name when given as a string (or uses the inline prompt object), merges all
input messages' `extra_args` into one mapping by sequential key-by-key
overwrite — so a later message's value for a key overrides an earlier
message's — and renders the prompt with that mapping as the new message
sequence; with declared tools it resolves each tool by name; and it delegates
the templated messages and resolved tools to the connection's `chat`,
returning its result. -/
theorem chat_settings_pipeline
    (res : String → ResourceType → Except PyErr RVal)
    (fm : Prompt → List (String × String) → List ChatMessage)
    (conn_chat : Nat → List ChatMessage → Option (List RVal) → ChatMessage)
    (s : ChatModelSettings) (messages : List ChatMessage) (cid : Nat)
    (tns : List String) (tvs : List RVal) (p : Prompt) (pn : String)
    (hconn : res s.connection .chat_model_connection = .ok (.conn cid))
    (htools : s.tools = some tns)
    (hts : resolve_tools res tns = .ok tvs) :
    (s.prompt = some (.byName pn) → res pn .prompt = .ok (.promptVal p) →
      s.chat res fm conn_chat messages =
        .ok (conn_chat cid (fm p (merged_extra_args messages)) (some tvs))) ∧
    (s.prompt = some (.obj p) →
      s.chat res fm conn_chat messages =
        .ok (conn_chat cid (fm p (merged_extra_args messages)) (some tvs))) ∧
    ∀ key, dictGet (merged_extra_args messages) key =
      lookup_last ((messages.map (fun m => m.extra_args)).flatten) key := by
  refine ⟨?_, ?_, fun key => merged_extra_args_spec messages key⟩
  · intro hpr hpn
    simp [ChatModelSettings.chat, hconn, apply_prompt, hpr, hpn, bind_tools,
      htools, hts]
  · intro hpr
    simp [ChatModelSettings.chat, hconn, apply_prompt, hpr, bind_tools,
      htools, hts]

/-- Concrete settings for the `ChatModelSettings.chat` witness: connection
`"conn"`, prompt resource `"greet"`, one tool `"add"`. -/
def sample_settings : ChatModelSettings :=
  { name := "model", connection := "conn", prompt := some (.byName "greet"),
    tools := some ["add"] }

/-- Concrete resolver for the witness. -/
def sample_res (nm : String) (t : ResourceType) : Except PyErr RVal :=
  match t, nm with
  | .chat_model_connection, "conn" => .ok (.conn 7)
  | .prompt, "greet" => .ok (.promptVal ⟨"greet", "Hello {name}"⟩)
  | .tool, "add" => .ok (.toolVal 3)
  | _, _ => .error .keyError

/-- Two messages with overlapping context keys, `x` bound to `"1"` then
`"2"`. -/
def sample_messages : List ChatMessage :=
  [ { role := "user", content := "a", extra_args := [("x", "1")] },
    { role := "user", content := "b", extra_args := [("x", "2"), ("y", "0")] } ]

/-- Witness for `chat_settings_pipeline`, also checking the claim's concrete
scenario: the contexts `x ↦ 1` then `x ↦ 2` merge to `x ↦ 2`. -/
theorem chat_settings_pipeline_witness :
    sample_res sample_settings.connection .chat_model_connection = .ok (.conn 7) ∧
    sample_settings.tools = some ["add"] ∧
    resolve_tools sample_res ["add"] = .ok [.toolVal 3] ∧
    sample_settings.prompt = some (.byName "greet") ∧
    sample_res "greet" .prompt = .ok (.promptVal ⟨"greet", "Hello {name}"⟩) ∧
    (∀ fm conn_chat,
      sample_settings.chat sample_res fm conn_chat sample_messages =
        .ok (conn_chat 7 (fm ⟨"greet", "Hello {name}"⟩
          (merged_extra_args sample_messages)) (some [.toolVal 3]))) ∧
    dictGet (merged_extra_args sample_messages) "x" = some "2" :=
  ⟨by rfl, by rfl, by rfl, by rfl, by rfl,
   fun fm conn_chat =>
     (chat_settings_pipeline sample_res fm conn_chat sample_settings
       sample_messages 7 ["add"] [.toolVal 3] ⟨"greet", "Hello {name}"⟩ "greet"
       (by rfl) (by rfl) (by rfl)).1 (by rfl) (by rfl),
   by rfl⟩

/-- An interleaving in which both threads pass the cache-membership test
before either stores its result: thread 1 checks, thread 2 checks, thread 1
constructs, inserts and returns, then thread 2 constructs, inserts and
returns. -/
def race_bad_sched : List Bool := [true, false, true, true, true, false, false, false]

/-- The serialized execution: thread 1 runs `get_resource` to completion, then
thread 2 runs. -/
def race_seq_sched : List Bool := [true, true, true, true, false, false]

/-- Claim C10, counterexample: `get_resource` contains no lock, so under the
interleaving `race_bad_sched` two concurrent first-time resolutions of the
same `(kind, name)` on one plan instance both invoke the provider — two
constructions, not one — and the callers receive two distinct instances
(thread 2's insert overwrites thread 1's in the cache). -/
theorem get_resource_race_counterexample :
    (race_run .tool "x" race_bad_sched race_init).world.constructions =
      [(.tool, "x"), (.tool, "x")] ∧
    (race_run .tool "x" race_bad_sched race_init).t1.ret = some ⟨.tool, "x", 0⟩ ∧
    (race_run .tool "x" race_bad_sched race_init).t2.ret = some ⟨.tool, "x", 1⟩ ∧
    (race_run .tool "x" race_bad_sched race_init).t1.ret ≠
      (race_run .tool "x" race_bad_sched race_init).t2.ret :=
  ⟨rfl, rfl, rfl, by decide⟩

/-- Claim C10, amended: the resolver guards `(kind, name)` entries with no
mutual exclusion at all.  When the two first-time calls do not interleave —
one runs to completion before the other starts — the second hits the cache:
exactly one construction and both callers receive the identical instance.
But an interleaving exists under which both callers construct (two provider
invocations) and they receive distinct instances. -/
theorem get_resource_race_no_lock :
    (race_run .tool "x" race_seq_sched race_init).world.constructions =
      [(.tool, "x")] ∧
    (race_run .tool "x" race_seq_sched race_init).t1.ret = some ⟨.tool, "x", 0⟩ ∧
    (race_run .tool "x" race_seq_sched race_init).t2.ret = some ⟨.tool, "x", 0⟩ ∧
    (race_run .tool "x" race_bad_sched race_init).world.constructions.length = 2 ∧
    (race_run .tool "x" race_bad_sched race_init).t1.ret ≠
      (race_run .tool "x" race_bad_sched race_init).t2.ret :=
  ⟨rfl, rfl, rfl, rfl, by decide⟩
